import Mathlib

/-!
Verification of the order-reporting application (`report_app.py`).

This file gives a shallow embedding, in Lean 4, of the authentication core
(HMAC-SHA256 signed tokens, urlsafe base64 transport, the login router) and of
the spreadsheet-backed data-access layer (header reconciliation, row-addressed
CRUD, audit logging) of the application, together with theorems settling the
specification claims about those components.

Conventions of the embedding:
* Clocks (`datetime.now(timezone.utc)`, `pd.Timestamp.utcnow()`) are modelled
  by an explicit integer parameter `now`, in whole epoch seconds.  The
  application only ever compares whole seconds, so fractional seconds are
  dropped (`int(... .timestamp())` truncates them in the source as well).
* Python `str` is modelled by `String` (a list of unicode scalar values);
  `bytes` by `List Nat`, every element below 256 at use sites.
* Python floats for money amounts are modelled by `ℚ`; the spreadsheet stores
  heterogeneous cells (`Cell.s` for text, `Cell.n` for numbers), matching the
  mixed `str`/`float` lists the source passes to the spreadsheet API.
* A worksheet is the row-major list of its rows as the remote API returns
  them (`get_all_values`); external library calls (`gspread`, `base64`,
  `hmac`, `hashlib`, `pandas` parsing) are modelled by executable Lean
  functions that mirror the documented behaviour the source relies on.
* Fallible Python code (exceptions caught by `try/except`) returns `Option`.
-/

namespace ReportApp

/-! ## Python primitives: whitespace, strip, upper, decimal numbers -/

/-- Whitespace characters recognised by Python `str.strip()` (ASCII part). -/
def pySpace (c : Char) : Bool :=
  c = ' ' || c = '\t' || c = '\n' || c = '\r' || c = '\x0b' || c = '\x0c'

/-- Model of Python `str.strip()`: drop leading and trailing whitespace. -/
def pyStrip (s : String) : String :=
  String.mk (((s.data.dropWhile pySpace).reverse.dropWhile pySpace).reverse)

/-- Model of Python `str.upper()` for the basic latin range (the Active-flag
values compared by the source are plain ASCII). -/
def pyUpper (s : String) : String :=
  String.mk (s.data.map Char.toUpper)

/-- Decimal digit character for a value below 10. -/
def digitChar (d : Nat) : Char := Char.ofNat (48 + d)

/-- Little-endian decimal digits of a natural number (fuel-based so that the
definition reduces in the kernel). -/
def natDigitsLE : Nat → Nat → List Nat
  | 0, _ => []
  | f + 1, n => if n < 10 then [n] else (n % 10) :: natDigitsLE f (n / 10)

/-- Decimal representation of a natural number, as produced by Python `str`. -/
def natRepr (n : Nat) : List Char :=
  ((natDigitsLE (n + 1) n).map digitChar).reverse

/-- Decimal representation of an integer, as produced by Python `str`/f-strings. -/
def intRepr (z : ℤ) : String :=
  if z < 0 then String.mk ('-' :: natRepr z.natAbs) else String.mk (natRepr z.natAbs)

/-- Numeric value of a decimal digit character, if it is one. -/
def digitVal? (c : Char) : Option Nat :=
  if 48 ≤ c.toNat ∧ c.toNat ≤ 57 then some (c.toNat - 48) else none

/-- Value of a big-endian digit-character string. -/
def decDigitsVal (l : List Char) : Nat :=
  l.foldl (fun a c => a * 10 + (c.toNat - 48)) 0

/-- Parse a non-empty all-digit character list. -/
def parseDigits (l : List Char) : Option Nat :=
  if l ≠ [] ∧ l.all (fun c => (digitVal? c).isSome) then some (decDigitsVal l) else none

/-- Model of Python `int(s)`: optional surrounding whitespace, optional sign,
then decimal digits; anything else raises `ValueError` (here: `none`).
(Underscore separators and other bases are never produced by the source.) -/
def pyInt (s : String) : Option ℤ :=
  match (pyStrip s).data with
  | [] => none
  | c :: rest =>
    if c = '-' then (parseDigits rest).map (fun n => -(n : ℤ))
    else if c = '+' then (parseDigits rest).map (fun n => (n : ℤ))
    else (parseDigits (c :: rest)).map (fun n => (n : ℤ))

/-- Parse an unsigned decimal with an optional fractional part into `ℚ`. -/
def parseDecFrac (l : List Char) : Option ℚ :=
  match l.splitOn '.' with
  | [ip] => (parseDigits ip).map (fun n => (n : ℚ))
  | [ip, fp] =>
    if ip = [] ∧ fp = [] then none
    else if ip = [] then (parseDigits fp).map (fun f => (f : ℚ) / (10 : ℚ) ^ fp.length)
    else if fp = [] then (parseDigits ip).map (fun n => (n : ℚ))
    else
      match parseDigits ip, parseDigits fp with
      | some n, some f => some ((n : ℚ) + (f : ℚ) / (10 : ℚ) ^ fp.length)
      | _, _ => none
  | _ => none

/-- Model of Python `float(s)` / `pandas.to_numeric` for the plain decimal
numerals the application reads and writes (optional sign, digits, optional
fractional part).  Other accepted spellings (exponents, `inf`, `nan`) never
occur in the application's data and are mapped to `none`. -/
def pyFloat (s : String) : Option ℚ :=
  match (pyStrip s).data with
  | [] => none
  | c :: rest =>
    if c = '-' then (parseDecFrac rest).map (fun q => -q)
    else if c = '+' then parseDecFrac rest
    else parseDecFrac (c :: rest)

/-- Round half to even at integer precision, as Python `round` does. -/
def roundHalfEven (q : ℚ) : ℤ :=
  let fl := ⌊q⌋
  let fr := q - fl
  if fr < 1 / 2 then fl
  else if 1 / 2 < fr then fl + 1
  else if fl % 2 = 0 then fl else fl + 1

/-- Model of Python `round(x, 2)` (banker's rounding at two decimals). -/
def pyRound2 (q : ℚ) : ℚ := (roundHalfEven (q * 100) : ℚ) / 100

/-! ## SHA-256 and HMAC (models of `hashlib.sha256` / `hmac.new(...).hexdigest()`)

The hash operates on byte lists; all arithmetic is `Nat` with explicit
reduction modulo `2 ^ 32`. -/

def m32 : Nat := 4294967296

def add32 (a b : Nat) : Nat := (a + b) % m32

def not32 (x : Nat) : Nat := 4294967295 - x

def rotr32 (n x : Nat) : Nat := ((x >>> n) + ((x % (2 ^ n)) <<< (32 - n))) % m32

def bsig0 (x : Nat) : Nat := Nat.xor (rotr32 2 x) (Nat.xor (rotr32 13 x) (rotr32 22 x))

def bsig1 (x : Nat) : Nat := Nat.xor (rotr32 6 x) (Nat.xor (rotr32 11 x) (rotr32 25 x))

def ssig0 (x : Nat) : Nat := Nat.xor (rotr32 7 x) (Nat.xor (rotr32 18 x) (x >>> 3))

def ssig1 (x : Nat) : Nat := Nat.xor (rotr32 17 x) (Nat.xor (rotr32 19 x) (x >>> 10))

def chF (x y z : Nat) : Nat := Nat.xor (Nat.land x y) (Nat.land (not32 x) z)

def majF (x y z : Nat) : Nat :=
  Nat.xor (Nat.land x y) (Nat.xor (Nat.land x z) (Nat.land y z))

def shaK : List Nat :=
  [1116352408, 1899447441, 3049323471, 3921009573, 961987163, 1508970993,
   2453635748, 2870763221, 3624381080, 310598401, 607225278, 1426881987,
   1925078388, 2162078206, 2614888103, 3248222580, 3835390401, 4022224774,
   264347078, 604807628, 770255983, 1249150122, 1555081692, 1996064986,
   2554220882, 2821834349, 2952996808, 3210313671, 3336571891, 3584528711,
   113926993, 338241895, 666307205, 773529912, 1294757372, 1396182291,
   1695183700, 1986661051, 2177026350, 2456956037, 2730485921, 2820302411,
   3259730800, 3345764771, 3516065817, 3600352804, 4094571909, 275423344,
   430227734, 506948616, 659060556, 883997877, 958139571, 1322822218,
   1537002063, 1747873779, 1955562222, 2024104815, 2227730452, 2361852424,
   2428436474, 2756734187, 3204031479, 3329325298]

def shaInit : List Nat :=
  [1779033703, 3144134277, 1013904242, 2773480762,
   1359893119, 2600822924, 528734635, 1541459225]

/-- SHA-256 padding of a byte list. -/
def padMsg (msg : List Nat) : List Nat :=
  let L := msg.length
  let zeros := (120 - (L + 1) % 64) % 64
  let lenBits := 8 * L
  msg ++ [0x80] ++ List.replicate zeros 0 ++
    [(lenBits >>> 56) % 256, (lenBits >>> 48) % 256, (lenBits >>> 40) % 256, (lenBits >>> 32) % 256,
     (lenBits >>> 24) % 256, (lenBits >>> 16) % 256, (lenBits >>> 8) % 256, lenBits % 256]

/-- Group bytes into big-endian 32-bit words. -/
def toWords : List Nat → List Nat
  | a :: b :: c :: d :: rest => (((a * 256 + b) * 256 + c) * 256 + d) :: toWords rest
  | _ => []

/-- Group a word list into blocks of 16 (fuel-based structural recursion so
that the kernel can evaluate it). -/
def toBlocksF : Nat → List Nat → List (List Nat)
  | 0, _ => []
  | _, [] => []
  | f + 1, a :: ws => ((a :: ws).take 16) :: toBlocksF f ((a :: ws).drop 16)

def toBlocks (ws : List Nat) : List (List Nat) := toBlocksF ws.length ws

/-- Message schedule: extend 16 words to 64, kept in reverse order. -/
def schedRev (rev : List Nat) : Nat → List Nat
  | 0 => rev
  | n + 1 =>
    let w2 := rev.getD 1 0
    let w7 := rev.getD 6 0
    let w15 := rev.getD 14 0
    let w16 := rev.getD 15 0
    schedRev ((add32 (add32 (ssig1 w2) w7) (add32 (ssig0 w15) w16)) :: rev) n

def schedule (block : List Nat) : List Nat :=
  (schedRev block.reverse 48).reverse

structure ShaSt where
  a : Nat
  b : Nat
  c : Nat
  d : Nat
  e : Nat
  f : Nat
  g : Nat
  h : Nat

def roundStep (st : ShaSt) (kw : Nat × Nat) : ShaSt :=
  let t1 := add32 st.h (add32 (bsig1 st.e) (add32 (chF st.e st.f st.g) (add32 kw.1 kw.2)))
  let t2 := add32 (bsig0 st.a) (majF st.a st.b st.c)
  { a := add32 t1 t2, b := st.a, c := st.b, d := st.c,
    e := add32 st.d t1, f := st.e, g := st.f, h := st.g }

def compress (hs : List Nat) (block : List Nat) : List Nat :=
  let ws := schedule block
  let st0 : ShaSt := { a := hs.getD 0 0, b := hs.getD 1 0, c := hs.getD 2 0, d := hs.getD 3 0,
                       e := hs.getD 4 0, f := hs.getD 5 0, g := hs.getD 6 0, h := hs.getD 7 0 }
  let stF := (List.zip shaK ws).foldl roundStep st0
  [add32 (hs.getD 0 0) stF.a, add32 (hs.getD 1 0) stF.b, add32 (hs.getD 2 0) stF.c,
   add32 (hs.getD 3 0) stF.d, add32 (hs.getD 4 0) stF.e, add32 (hs.getD 5 0) stF.f,
   add32 (hs.getD 6 0) stF.g, add32 (hs.getD 7 0) stF.h]

/-- SHA-256 of a byte list (32-byte digest).  Checked against the FIPS 180
test vectors (for example `sha256 "abc" = ba7816bf…f20015ad`). -/
def sha256 (msg : List Nat) : List Nat :=
  let hs := (toBlocks (toWords (padMsg msg))).foldl compress shaInit
  hs.flatMap (fun w => [(w >>> 24) % 256, (w >>> 16) % 256, (w >>> 8) % 256, w % 256])

def hexDigitChar (n : Nat) : Char :=
  if n < 10 then Char.ofNat (48 + n) else Char.ofNat (87 + n)

/-- Lowercase hex spelling of a byte list (`hexdigest()`). -/
def bytesToHex (bs : List Nat) : List Char :=
  bs.flatMap (fun b => [hexDigitChar (b / 16), hexDigitChar (b % 16)])

/-- HMAC-SHA256 (RFC 2104) over byte lists.  Checked against the RFC 4231
test vectors. -/
def hmacSha256 (key msg : List Nat) : List Nat :=
  let key2 := if key.length > 64 then sha256 key else key
  let kpad := key2 ++ List.replicate (64 - key2.length) 0
  let ipad := kpad.map (fun b => Nat.xor b 0x36)
  let opad := kpad.map (fun b => Nat.xor b 0x5c)
  sha256 (opad ++ sha256 (ipad ++ msg))

/-! ## UTF-8 (models of `str.encode("utf-8")` / `bytes.decode("utf-8")`) -/

/-- UTF-8 encoding of one unicode scalar value. -/
def utf8Char (c : Char) : List Nat :=
  let v := c.toNat
  if v < 0x80 then [v]
  else if v < 0x800 then [0xC0 + v / 64, 0x80 + v % 64]
  else if v < 0x10000 then [0xE0 + v / 4096, 0x80 + (v / 64) % 64, 0x80 + v % 64]
  else [0xF0 + v / 262144, 0x80 + (v / 4096) % 64, 0x80 + (v / 64) % 64, 0x80 + v % 64]

/-- Model of `str.encode("utf-8")`. -/
def utf8Encode (l : List Char) : List Nat := l.flatMap utf8Char

/-- Decode one UTF-8 character from the front of a byte list (strict).
Returns the character and the remaining bytes; stray continuation bytes,
overlong forms, surrogates and out-of-range code points are rejected, exactly
the inputs on which the Python decoder raises. -/
def utf8DecodeOne (bs : List Nat) : Option (Char × List Nat) :=
  match bs with
  | [] => none
  | b :: rest =>
    if b < 0x80 then some (Char.ofNat b, rest)
    else if b < 0xC2 then none
    else if b < 0xE0 then
      match rest with
      | b1 :: rest1 =>
        if 0x80 ≤ b1 ∧ b1 < 0xC0 then
          some (Char.ofNat ((b - 0xC0) * 64 + (b1 - 0x80)), rest1)
        else none
      | [] => none
    else if b < 0xF0 then
      match rest with
      | b1 :: b2 :: rest2 =>
        if (0x80 ≤ b1 ∧ b1 < 0xC0) ∧ (0x80 ≤ b2 ∧ b2 < 0xC0) ∧
            0x800 ≤ (b - 0xE0) * 4096 + (b1 - 0x80) * 64 + (b2 - 0x80) ∧
            ((b - 0xE0) * 4096 + (b1 - 0x80) * 64 + (b2 - 0x80) < 0xD800 ∨
              0xE000 ≤ (b - 0xE0) * 4096 + (b1 - 0x80) * 64 + (b2 - 0x80)) then
          some (Char.ofNat ((b - 0xE0) * 4096 + (b1 - 0x80) * 64 + (b2 - 0x80)), rest2)
        else none
      | _ => none
    else if b < 0xF5 then
      match rest with
      | b1 :: b2 :: b3 :: rest3 =>
        if (0x80 ≤ b1 ∧ b1 < 0xC0) ∧ (0x80 ≤ b2 ∧ b2 < 0xC0) ∧ (0x80 ≤ b3 ∧ b3 < 0xC0) ∧
            0x10000 ≤ (b - 0xF0) * 262144 + (b1 - 0x80) * 4096 + (b2 - 0x80) * 64 + (b3 - 0x80) ∧
            (b - 0xF0) * 262144 + (b1 - 0x80) * 4096 + (b2 - 0x80) * 64 + (b3 - 0x80) <
              0x110000 then
          some (Char.ofNat
              ((b - 0xF0) * 262144 + (b1 - 0x80) * 4096 + (b2 - 0x80) * 64 + (b3 - 0x80)),
            rest3)
        else none
      | _ => none
    else none

/-- Fuel-based decoding loop (structural recursion so the kernel can
evaluate it; `bs.length` fuel always suffices). -/
def utf8DecodeF : Nat → List Nat → Option (List Char)
  | _, [] => some []
  | 0, _ :: _ => none
  | f + 1, b :: rest =>
    match utf8DecodeOne (b :: rest) with
    | none => none
    | some (c, rest2) => (utf8DecodeF f rest2).map (fun cs => c :: cs)

/-- Model of strict `bytes.decode("utf-8")`. -/
def utf8Decode (bs : List Nat) : Option (List Char) := utf8DecodeF bs.length bs

/-! ## Base64 (models of `base64.urlsafe_b64encode` / `base64.urlsafe_b64decode`)

The decoder mirrors CPython's default (non-strict) `binascii.a2b_base64`:
bytes outside the alphabet are skipped, `=` closes a quad once at least two
data characters are pending (further input is then ignored), unused low bits
of a final partial group are discarded, and a leftover partial quad raises
(`none`). -/

/-- Urlsafe base64 alphabet: 6-bit value to ASCII code. -/
def b64UrlChar (v : Nat) : Nat :=
  if v < 26 then 65 + v
  else if v < 52 then 97 + (v - 26)
  else if v < 62 then 48 + (v - 52)
  else if v = 62 then 45
  else 95

/-- Base64-encode a byte list into ASCII codes (with `=` padding, code 61). -/
def b64EncChunks : List Nat → List Nat
  | [] => []
  | [a] => [b64UrlChar (a / 4), b64UrlChar ((a % 4) * 16), 61, 61]
  | [a, b] => [b64UrlChar (a / 4), b64UrlChar ((a % 4) * 16 + b / 16), b64UrlChar ((b % 16) * 4), 61]
  | a :: b :: c :: rest =>
    b64UrlChar (a / 4) :: b64UrlChar ((a % 4) * 16 + b / 16) ::
      b64UrlChar ((b % 16) * 4 + c / 64) :: b64UrlChar (c % 64) :: b64EncChunks rest

/-- Model of `str.encode`-level `bytes.translate` step of `urlsafe_b64decode`:
map `-` and `_` back to `+` and `/`. -/
def b64Translate (c : Nat) : Nat := if c = 45 then 43 else if c = 95 then 47 else c

/-- Standard-alphabet 6-bit value of an ASCII code, if in the alphabet. -/
def b64ValStd (c : Nat) : Option Nat :=
  if 65 ≤ c ∧ c ≤ 90 then some (c - 65)
  else if 97 ≤ c ∧ c ≤ 122 then some (c - 97 + 26)
  else if 48 ≤ c ∧ c ≤ 57 then some (c - 48 + 52)
  else if c = 43 then some 62
  else if c = 47 then some 63
  else none

/-- Core loop of the lenient base64 decoder.  State: position in the current
quad, pending bits, padding characters seen in the current quad, output bytes
in reverse. -/
def b64Run : List Nat → Nat → Nat → Nat → List Nat → Option (List Nat)
  | [], qp, _, _, out => if qp = 0 then some out.reverse else none
  | c :: rest, qp, acc, pads, out =>
    match b64ValStd c with
    | some v =>
      if qp = 0 then b64Run rest 1 v pads out
      else if qp = 1 then b64Run rest 2 ((acc * 64 + v) % 16) pads (((acc * 64 + v) >>> 4) :: out)
      else if qp = 2 then b64Run rest 3 ((acc * 64 + v) % 4) pads (((acc * 64 + v) >>> 2) :: out)
      else b64Run rest 0 0 pads ((acc * 64 + v) :: out)
    | none =>
      if c = 61 then
        if 2 ≤ qp ∧ 4 ≤ qp + pads + 1 then some out.reverse
        else b64Run rest qp acc (if 2 ≤ qp then pads + 1 else pads) out
      else b64Run rest qp acc pads out

/-- Model of `base64.urlsafe_b64decode` on a byte list. -/
def urlsafeB64Decode (bs : List Nat) : Option (List Nat) :=
  b64Run (bs.map b64Translate) 0 0 0 []

/-! ## Token service (`_sign`, `issue_token`, `verify_token`) -/

def COOKIE_SECRET : String := "hQ8$3nV@71!xXo^p4GmJz2#fK9rT6e"

def COOKIE_EXPIRY_DAYS : Nat := 180

/-- Model of `_sign`: hex HMAC-SHA256 of the payload under `COOKIE_SECRET`. -/
def signPayload (s : String) : String :=
  String.mk (bytesToHex (hmacSha256 (utf8Encode COOKIE_SECRET.data) (utf8Encode s.data)))

/-- Identity carried by a verified token. -/
structure AuthIdent where
  username : String
  name : String
deriving DecidableEq, Repr

/-- Model of `issue_token(username, name)` issued at epoch second `now`
(the source reads the clock; here it is an explicit argument). -/
def issue_token (now : ℤ) (username name : String) : String :=
  let exp : ℤ := now + (COOKIE_EXPIRY_DAYS : ℤ) * 24 * 3600
  let payload : String := username ++ "|" ++ name ++ "|" ++ intRepr exp
  let sig := signPayload payload
  let token : String := payload ++ "|" ++ sig
  String.mk ((b64EncChunks (utf8Encode token.data)).map Char.ofNat)

/-- Split off everything before the first occurrence of `sep`. -/
def splitOnce (sep : Char) : List Char → Option (List Char × List Char)
  | [] => none
  | x :: xs => if x = sep then some ([], xs) else (splitOnce sep xs).map (fun p => (x :: p.1, p.2))

/-- Model of `token.split("|", 3)` bound to exactly four names: with fewer
than three separators the unpacking raises (here: `none`); the fourth part
keeps any later separators. -/
def split3 (sep : Char) (l : List Char) : Option (List Char × List Char × List Char × List Char) :=
  match splitOnce sep l with
  | none => none
  | some (a, r1) =>
    match splitOnce sep r1 with
    | none => none
    | some (b, r2) =>
      match splitOnce sep r2 with
      | none => none
      | some (c, d) => some (a, b, c, d)

/-- Is every character of the string ASCII? -/
def isAsciiStr (s : String) : Bool := s.data.all (fun c => c.toNat < 128)

/-- Model of `hmac.compare_digest` on `str` arguments: constant-time equality;
non-ASCII operands raise `TypeError` (here: `none`). -/
def compareDigest (a b : String) : Option Bool :=
  if isAsciiStr a ∧ isAsciiStr b then some (a = b) else none

/-- Model of `verify_token(token_b64)` checked at epoch second `now`.  Every
exception path of the source's `try` block returns `none`. -/
def verify_token (now : ℤ) (token_b64 : String) : Option AuthIdent :=
  match urlsafeB64Decode (utf8Encode token_b64.data) with
  | none => none
  | some tokenBytes =>
    match utf8Decode tokenBytes with
    | none => none
    | some tokenChars =>
      match split3 '|' tokenChars with
      | none => none
      | some (u, nm, expStr, sig) =>
        let payload : String := String.mk u ++ "|" ++ String.mk nm ++ "|" ++ String.mk expStr
        match compareDigest (String.mk sig) (signPayload payload) with
        | none => none
        | some ok =>
          if ok then
            match pyInt (String.mk expStr) with
            | none => none
            | some exp => if exp < now then none else some ⟨String.mk u, String.mk nm⟩
          else none

/-- Flip the bits selected by `mask` in the code of the character at index
`i` (for stating single-bit corruptions of an encoded token). -/
def flipCharBit (i mask : Nat) (s : String) : String :=
  String.mk (s.data.mapIdx (fun j c => if j = i then Char.ofNat (Nat.xor c.toNat mask) else c))

/-! ## Worksheet model

A worksheet is the list of its rows; a cell is either text or a number,
matching the mixed `str`/`float` lists the source hands to the spreadsheet
API.  `get_all_values` returns rows of strings, so reads go through a
stringification step, as with the remote API. -/

inductive Cell where
  | s (v : String)
  | n (v : ℚ)
deriving DecidableEq, Repr

abbrev Row := List Cell

abbrev Ws := List Row

/-- Decimal rendering of a rational, used when a numeric cell is read back as
text.  Every number the application writes has a finite decimal expansion
(UI floats and two-decimal roundings), which is rendered exactly; the
`num/den` fallback is never reached on application data. -/
def qRepr (q : ℚ) : String :=
  match (List.range 31).find? (fun k => (10 : ℤ) ^ k % (q.den : ℤ) = 0) with
  | some k =>
    if k = 0 then intRepr q.num
    else
      let scaled := q.num.natAbs * ((10 : ℕ) ^ k / q.den)
      let ip := scaled / 10 ^ k
      let fp := scaled % 10 ^ k
      let fpStr := String.mk (natRepr fp)
      let fpPad := String.mk (List.replicate (k - fpStr.length) '0') ++ fpStr
      (if q.num < 0 then "-" else "") ++ String.mk (natRepr ip) ++ "." ++ fpPad
  | none => intRepr q.num ++ "/" ++ String.mk (natRepr q.den)

def cellStr : Cell → String
  | .s v => v
  | .n v => qRepr v

/-- Model of `ws.get_all_values()`: all rows, stringified. -/
def getAllValues (ws : Ws) : List (List String) := ws.map (fun r => r.map cellStr)

def dropTrailingEmpty (l : List String) : List String :=
  (l.reverse.dropWhile (fun v => v = "")).reverse

/-- Model of `ws.row_values(1)`: first row as strings, trailing empty cells
omitted (as the values API does). -/
def rowValues1 (ws : Ws) : List String :=
  dropTrailingEmpty ((ws.headD []).map cellStr)

def setRowPrefix (vals : Row) (row : Row) : Row := vals ++ row.drop vals.length

def padRowsTo (r : Nat) (ws : Ws) : Ws := ws ++ List.replicate (r - ws.length) []

def setRowAt (i : Nat) (f : Row → Row) : Ws → Ws
  | [] => []
  | r :: rs =>
    match i with
    | 0 => f r :: rs
    | i + 1 => r :: setRowAt i f rs

/-- Model of `ws.update("A<r>:<X><r>", [vals])`: overwrite the leading cells
of (1-based) row `r`, leaving later cells of that row and all other rows
unchanged; missing rows are materialised as empty. -/
def wsUpdateRow (r : Nat) (vals : Row) (ws : Ws) : Ws :=
  setRowAt (r - 1) (setRowPrefix vals) (padRowsTo r ws)

/-- Model of `ws.update` over a multi-row range starting at (1-based) `r`. -/
def wsUpdateRows (r : Nat) (valss : List Row) (ws : Ws) : Ws :=
  match valss with
  | [] => ws
  | v :: vs => wsUpdateRows (r + 1) vs (wsUpdateRow r v ws)

/-- Model of `ws.append_row(vals)`. -/
def wsAppendRow (vals : Row) (ws : Ws) : Ws := ws ++ [vals]

/-- Model of `ws.delete_rows(r)` for a single (1-based) row. -/
def wsDeleteRow (r : Nat) (ws : Ws) : Ws := ws.take (r - 1) ++ ws.drop r

/-! ## Sheet names, headers and seeds (module constants of the source) -/

def ORDERS_SHEET : String := "Sheet1"

def CLIENTS_SHEET : String := "Clients"

def USERS_SHEET : String := "Users"

def PRESETS_SHEET : String := "FilterPresets"

def AUDIT_SHEET : String := "AuditLog"

def EXPECTED_HEADER : List String :=
  ["Timestamp", "User", "Client", "Amount", "ProfitPct", "ProfitAmt", "Status"]

def CLIENTS_HEADER : List String := ["User", "Client", "OpenDate"]

def USERS_HEADER : List String := ["Username", "DisplayName", "Role", "Password", "Active"]

def PRESETS_HEADER : List String := ["Name", "User", "Client", "Status", "FromDate", "ToDate"]

def AUDIT_HEADER : List String :=
  ["At", "Actor", "Action", "TargetSheet", "SheetRow", "Reason", "OldJSON", "NewJSON"]

/-- Seed accounts (`SEED_USERS`), as the 5-column rows the source writes. -/
def SEED_USERS : List (List String) :=
  [["jerry", "Jerry", "admin", "Qa9$gH!7k2@", "TRUE"],
   ["wolf1", "Wolf 1", "team", "tu8*NMh2!5", "TRUE"],
   ["wolf2", "Wolf 2", "team", "Rb4)fKz7^1", "TRUE"],
   ["wolf3", "Wolf 3", "team", "xE3@pL9!q6", "TRUE"],
   ["wolf8", "Wolf 8", "team", "Jh7$wT2%v8", "TRUE"],
   ["wolf9", "Wolf 9", "team", "mN5#cR8&d4", "TRUE"],
   ["king3", "King 3", "team", "zT6*Ya3@e9", "TRUE"]]

/-! ## Header reconciliation (`ensure_*` functions)

Each returns the resulting worksheet together with whether an update call
was issued (the write the claims about idempotence talk about). -/

def ensure_orders_header (ws : Ws) : Ws × Bool :=
  if ws = [] ∨ rowValues1 ws ≠ EXPECTED_HEADER then
    (wsUpdateRow 1 (EXPECTED_HEADER.map Cell.s) ws, true)
  else (ws, false)

def ensure_clients_header (ws : Ws) : Ws × Bool :=
  if ws = [] ∨ rowValues1 ws ≠ CLIENTS_HEADER then
    (wsUpdateRow 1 (CLIENTS_HEADER.map Cell.s) ws, true)
  else (ws, false)

def ensure_users_sheet_seed (ws : Ws) : Ws × Bool :=
  if ws = [] then
    (wsUpdateRows 2 (SEED_USERS.map (fun u => u.map Cell.s))
      (wsUpdateRow 1 (USERS_HEADER.map Cell.s) ws), true)
  else if rowValues1 ws ≠ USERS_HEADER then (wsUpdateRow 1 (USERS_HEADER.map Cell.s) ws, true)
  else (ws, false)

def ensure_presets_header (ws : Ws) : Ws × Bool :=
  if ws = [] ∨ rowValues1 ws ≠ PRESETS_HEADER then
    (wsUpdateRow 1 (PRESETS_HEADER.map Cell.s) ws, true)
  else (ws, false)

def ensure_audit_header (ws : Ws) : Ws × Bool :=
  if ws = [] ∨ rowValues1 ws ≠ AUDIT_HEADER then
    (wsUpdateRow 1 (AUDIT_HEADER.map Cell.s) ws, true)
  else (ws, false)

/-- The common shape shared by the four plain header reconcilers (each of
`ensure_orders_header`, `ensure_clients_header`, `ensure_presets_header`,
`ensure_audit_header` is definitionally `ensureHdr` at its header). -/
def ensureHdr (hdr : List String) (ws : Ws) : Ws × Bool :=
  if ws = [] ∨ rowValues1 ws ≠ hdr then
    (wsUpdateRow 1 (hdr.map Cell.s) ws, true)
  else (ws, false)

/-! ## Timestamp parsing and formatting

The application writes timestamps with `strftime("%Y-%m-%d %H:%M:%S")` and
reads them back with `pandas.to_datetime`; the parser below covers that
canonical format (other text yields `none`, as `errors="coerce"` yields
`NaT`).  Days are converted with the standard proleptic-Gregorian civil-day
algorithms. -/

def isLeapYear (y : ℤ) : Bool := y % 4 = 0 && (y % 100 ≠ 0 || y % 400 = 0)

def daysInMonth (y : ℤ) (m : Nat) : Nat :=
  if m = 2 then (if isLeapYear y then 29 else 28)
  else if m = 4 ∨ m = 6 ∨ m = 9 ∨ m = 11 then 30
  else 31

/-- Days since 1970-01-01 of a civil date (Howard Hinnant's algorithm). -/
def daysFromCivil (y : ℤ) (m d : Nat) : ℤ :=
  let yy : ℤ := if m ≤ 2 then y - 1 else y
  let era : ℤ := (if 0 ≤ yy then yy else yy - 399) / 400
  let yoe : Nat := (yy - era * 400).toNat
  let doy : Nat := (153 * (if 2 < m then m - 3 else m + 9) + 2) / 5 + d - 1
  let doe : Nat := yoe * 365 + yoe / 4 - yoe / 100 + doy
  era * 146097 + (doe : ℤ) - 719468

/-- Civil date (year, month, day) of a days-since-epoch count. -/
def civilFromDays (z0 : ℤ) : ℤ × Nat × Nat :=
  let z := z0 + 719468
  let era : ℤ := (if 0 ≤ z then z else z - 146096) / 146097
  let doe : Nat := (z - era * 146097).toNat
  let yoe : Nat := (doe - doe / 1460 + doe / 36524 - doe / 146096) / 365
  let y : ℤ := (yoe : ℤ) + era * 400
  let doy : Nat := doe - (365 * yoe + yoe / 4 - yoe / 100)
  let mp : Nat := (5 * doy + 2) / 153
  let d : Nat := doy - (153 * mp + 2) / 5 + 1
  let m : Nat := if mp < 10 then mp + 3 else mp - 9
  (if m ≤ 2 then y + 1 else y, m, d)

def twoDigitVal (a b : Char) : Option Nat :=
  match digitVal? a, digitVal? b with
  | some x, some y => some (10 * x + y)
  | _, _ => none

/-- Parse `"YYYY-MM-DD HH:MM:SS"` into epoch seconds. -/
def parseTs (s : String) : Option ℤ :=
  match s.data with
  | [y1, y2, y3, y4, c1, m1, m2, c2, d1, d2, c3, h1, h2, c4, n1, n2, c5, s1, s2] =>
    if c1 = '-' ∧ c2 = '-' ∧ c3 = ' ' ∧ c4 = ':' ∧ c5 = ':' then
      match twoDigitVal y1 y2, twoDigitVal y3 y4, twoDigitVal m1 m2, twoDigitVal d1 d2,
          twoDigitVal h1 h2, twoDigitVal n1 n2, twoDigitVal s1 s2 with
      | some yh, some yl, some mo, some da, some ho, some mi, some se =>
        let y : ℤ := (yh * 100 + yl : Nat)
        if 1 ≤ mo ∧ mo ≤ 12 ∧ 1 ≤ da ∧ da ≤ daysInMonth y mo ∧ ho < 24 ∧ mi < 60 ∧ se < 60 then
          some (86400 * daysFromCivil y mo da + 3600 * ho + 60 * mi + se)
        else none
      | _, _, _, _, _, _, _ => none
    else none
  | _ => none

def pad2 (n : Nat) : String :=
  if n < 10 then "0" ++ String.mk (natRepr n) else String.mk (natRepr n)

def pad4 (n : Nat) : String :=
  if n < 10 then "000" ++ String.mk (natRepr n)
  else if n < 100 then "00" ++ String.mk (natRepr n)
  else if n < 1000 then "0" ++ String.mk (natRepr n)
  else String.mk (natRepr n)

/-- Model of `strftime("%Y-%m-%d %H:%M:%S")` on a UTC epoch second. -/
def fmtTs (t : ℤ) : String :=
  let days := t / 86400
  let secs := (t % 86400).toNat
  let ymd := civilFromDays days
  pad4 ymd.1.toNat ++ "-" ++ pad2 ymd.2.1 ++ "-" ++ pad2 ymd.2.2 ++ " " ++
    pad2 (secs / 3600) ++ ":" ++ pad2 (secs % 3600 / 60) ++ ":" ++ pad2 (secs % 60)

/-! ## Snapshots (Python dicts of record fields) and JSON -/

/-- Record snapshot: insertion-ordered association list, as a Python dict. -/
abbrev Snap := List (String × Cell)

def snapLookup (snap : Snap) (k : String) : Option Cell :=
  (snap.find? (fun p => p.1 = k)).map (fun p => p.2)

/-- Model of `dict.get(k, d)`. -/
def snapGet (snap : Snap) (k : String) (d : Cell) : Cell := (snapLookup snap k).getD d

/-- Model of `d[k] = v`: replace in place, or append a new key. -/
def snapSet (snap : Snap) (k : String) (v : Cell) : Snap :=
  if snap.any (fun p => p.1 = k) then snap.map (fun p => if p.1 = k then (k, v) else p)
  else snap ++ [(k, v)]

/-- Model of `dict.update`. -/
def snapUpdate (base upd : Snap) : Snap := upd.foldl (fun acc p => snapSet acc p.1 p.2) base

/-- JSON string literal with the two escapes that can occur in this data. -/
def jsonStr (s : String) : String :=
  "\"" ++ String.mk (s.data.flatMap (fun c =>
    if c = '"' ∨ c = '\\' then ['\\', c] else [c])) ++ "\""

def jsonCell : Cell → String
  | .s v => jsonStr v
  | .n v => qRepr v

/-- Model of `json.dumps` on a flat dict (default separators). -/
def jsonDumps (snap : Snap) : String :=
  "\x7b" ++ String.intercalate ", " (snap.map (fun p => jsonStr p.1 ++ ": " ++ jsonCell p.2)) ++ "\x7d"

/-! ## Loaders (`load_orders_with_rows`, `load_clients_df`, `load_users_df`) -/

/-- Model of `enumerate(rows, start)` for row numbering. -/
def rowsWithIdx (start : Nat) : List (List String) → List (Nat × List String)
  | [] => []
  | r :: rs => (start, r) :: rowsWithIdx (start + 1) rs

/-- Index assigned to column name `h` by the dict comprehension
`{h: r[idx] for idx, h in enumerate(hdr)}`: the last position of `h`. -/
def lastIdxOf (h : String) (hdr : List String) : Option Nat :=
  ((hdr.enum.filter (fun p => p.2 = h)).getLast?).map (fun p => p.1)

/-- Cell text of column `h` of data row `r` under sheet header `hdr`
(missing cells default to the empty string). -/
def colVal (hdr : List String) (r : List String) (h : String) : String :=
  match lastIdxOf h hdr with
  | some idx => r.getD idx ""
  | none => ""

structure OrderRec where
  sheetRow : Nat
  timestamp : String
  user : String
  client : String
  amount : ℚ
  profitPct : ℚ
  profitAmt : ℚ
  status : String
deriving DecidableEq, Repr

/-- Coercion applied by `pd.to_numeric(..., errors="coerce").fillna(0.0)`. -/
def numOr0 (s : String) : ℚ := (pyFloat s).getD 0

/-- Status string derived from the age in hours (`>= 120` hours means
completed); an unparseable timestamp contributes age `0` (`fillna(0)`). -/
def liveStatus (now : ℤ) (tsText : String) : String :=
  let ageH : ℚ := match parseTs tsText with
    | some t => ((now - t : ℤ) : ℚ) / 3600
    | none => 0
  if 120 ≤ ageH then "Completed" else "In Process"

/-- One loaded order record (row `i` of the sheet, under header `hdr`). -/
def orderRecOfRow (now : ℤ) (hdr : List String) (i : Nat) (r : List String) : OrderRec :=
  { sheetRow := i
    timestamp := colVal hdr r "Timestamp"
    user := colVal hdr r "User"
    client := colVal hdr r "Client"
    amount := numOr0 (colVal hdr r "Amount")
    profitPct := numOr0 (colVal hdr r "ProfitPct")
    profitAmt := numOr0 (colVal hdr r "ProfitAmt")
    status := liveStatus now (colVal hdr r "Timestamp") }

/-- Model of `load_orders_with_rows()` at time `now`. -/
def load_orders_with_rows (now : ℤ) (ordersWs : Ws) : List OrderRec :=
  let ws := (ensure_orders_header ordersWs).1
  let rows := getAllValues ws
  if rows.length ≤ 1 then []
  else
    let hdr := rows.headD []
    (rowsWithIdx 2 (rows.drop 1)).map (fun p => orderRecOfRow now hdr p.1 p.2)

structure ClientRec where
  sheetRow : Nat
  user : String
  client : String
  openDate : String
deriving DecidableEq, Repr

def clientRecOfRow (hdr : List String) (i : Nat) (r : List String) : ClientRec :=
  { sheetRow := i
    user := colVal hdr r "User"
    client := colVal hdr r "Client"
    openDate := colVal hdr r "OpenDate" }

/-- Model of `load_clients_df()`. -/
def load_clients_df (clientsWs : Ws) : List ClientRec :=
  let ws := (ensure_clients_header clientsWs).1
  let rows := getAllValues ws
  if rows.length ≤ 1 then []
  else
    let hdr := rows.headD []
    (rowsWithIdx 2 (rows.drop 1)).map (fun p => clientRecOfRow hdr p.1 p.2)

structure UserRec where
  sheetRow : Nat
  username : String
  displayName : String
  role : String
  password : String
  active : String
deriving DecidableEq, Repr

def userRecOfRow (hdr : List String) (i : Nat) (r : List String) : UserRec :=
  { sheetRow := i
    username := colVal hdr r "Username"
    displayName := colVal hdr r "DisplayName"
    role := colVal hdr r "Role"
    password := colVal hdr r "Password"
    active := colVal hdr r "Active" }

/-- Model of `load_users_df()`. -/
def load_users_df (usersWs : Ws) : List UserRec :=
  let ws := (ensure_users_sheet_seed usersWs).1
  let rows := getAllValues ws
  if rows.length ≤ 1 then []
  else
    let hdr := rows.headD []
    (rowsWithIdx 2 (rows.drop 1)).map (fun p => userRecOfRow hdr p.1 p.2)

/-! ## Audit log and mutating operations -/

/-- Model of `log_audit(...)`: reconcile the audit header, then append one
row.  `sheet_row` arrives already stringified (`str(sheet_row)` at the call
sites); an empty reason is logged as `"-"` (`reason or "-"`). -/
def log_audit (now : ℤ) (actor action target_sheet sheet_row reason : String)
    (old_obj new_obj : Option Snap) (audit : Ws) : Ws :=
  let ws := (ensure_audit_header audit).1
  let atv := fmtTs now
  ws ++ [[.s atv, .s actor, .s action, .s target_sheet, .s sheet_row,
          .s (if reason = "" then "-" else reason),
          .s (jsonDumps (old_obj.getD [])), .s (jsonDumps (new_obj.getD []))]]

/-- Model of `append_order_row(row_list)`. -/
def append_order_row (row : Row) (orders : Ws) : Ws :=
  (ensure_orders_header orders).1 ++ [row]

/-- Model of `float(x)` on a cell value; a non-numeric string raises
`ValueError` (here: `none`). -/
def cellFloat (c : Cell) : Option ℚ :=
  match c with
  | .n v => some v
  | .s v => pyFloat v

def parseTsCell (c : Cell) : Option ℤ :=
  match c with
  | .s v => parseTs v
  | .n _ => none

/-- Full record computed by `update_order_row` before writing: merge the
partial fields, coerce `Amount`/`ProfitPct` to numbers, recompute
`ProfitAmt` and the live `Status` (an unparseable timestamp falls back to
`utcnow`, i.e. age zero). -/
def uorFull (now : ℤ) (new_values old_record : Snap) : Option Snap :=
  let full0 := snapUpdate old_record new_values
  match cellFloat (snapGet full0 "Amount" (.n 0)), cellFloat (snapGet full0 "ProfitPct" (.n 0)) with
  | some amount, some pct =>
    let full1 := snapSet (snapSet full0 "Amount" (.n amount)) "ProfitPct" (.n pct)
    let full2 := snapSet full1 "ProfitAmt" (.n (pyRound2 (amount * pct / 100)))
    let ts : ℤ := match snapLookup full2 "Timestamp" with
      | some c => (parseTsCell c).getD now
      | none => now
    let ageH : ℚ := ((now - ts : ℤ) : ℚ) / 3600
    some (snapSet full2 "Status" (.s (if 120 ≤ ageH then "Completed" else "In Process")))
  | _, _ => none

/-- Model of `update_order_row(...)`: returns the new orders and audit
worksheets, or `none` where the source would raise (non-numeric amount). -/
def update_order_row (now : ℤ) (sheet_row : Nat) (new_values : Snap) (actor reason : String)
    (old_record : Snap) (orders audit : Ws) : Option (Ws × Ws) :=
  let ws := (ensure_orders_header orders).1
  match uorFull now new_values old_record with
  | none => none
  | some full =>
    let values := EXPECTED_HEADER.map (fun h => snapGet full h (.s ""))
    some (wsUpdateRow sheet_row values ws,
      log_audit now actor "EDIT_ORDER" ORDERS_SHEET (intRepr sheet_row) reason
        (some old_record) (some full) audit)

/-- Model of `delete_order_row(...)`. -/
def delete_order_row (now : ℤ) (sheet_row : Nat) (actor reason : String) (old_record : Snap)
    (orders audit : Ws) : Ws × Ws :=
  let ws := (ensure_orders_header orders).1
  (wsDeleteRow sheet_row ws,
   log_audit now actor "DELETE_ORDER" ORDERS_SHEET (intRepr sheet_row) reason
     (some old_record) none audit)

/-- Model of `add_client(user, client_name, open_date)`; the date argument is
its `strftime("%Y-%m-%d")` rendering.  Note: no audit call in the source. -/
def add_client (user client_name open_date : String) (clients : Ws) : Ws :=
  if pyStrip client_name = "" then clients
  else (ensure_clients_header clients).1 ++ [[.s user, .s (pyStrip client_name), .s open_date]]

/-- Model of `update_client(...)`. -/
def update_client (now : ℤ) (sheet_row : Nat) (user client open_date actor : String)
    (clients audit : Ws) : Ws × Ws :=
  let ws := (ensure_clients_header clients).1
  (wsUpdateRow sheet_row [.s user, .s client, .s open_date] ws,
   log_audit now actor "EDIT_CLIENT" CLIENTS_SHEET (intRepr sheet_row) "-" none
     (some [("User", .s user), ("Client", .s client), ("OpenDate", .s open_date)]) audit)

/-- Model of `delete_client_row(...)`. -/
def delete_client_row (now : ℤ) (sheet_row : Nat) (actor reason : String) (old_record : Snap)
    (clients audit : Ws) : Ws × Ws :=
  let ws := (ensure_clients_header clients).1
  (wsDeleteRow sheet_row ws,
   log_audit now actor "DELETE_CLIENT" CLIENTS_SHEET (intRepr sheet_row) reason
     (some old_record) none audit)

/-- Model of `save_preset(...)`. -/
def save_preset (now : ℤ) (name user client status dfrom dto actor : String)
    (presets audit : Ws) : Ws × Ws :=
  let ws := (ensure_presets_header presets).1
  (ws ++ [[.s name, .s user, .s client, .s status, .s dfrom, .s dto]],
   log_audit now actor "SAVE_PRESET" PRESETS_SHEET "-" "-" none
     (some [("Name", .s name)]) audit)

/-- Last 0-based index `i ≥ 1` whose row starts with `name` (the source scans
`range(len(vals)-1, 0, -1)` and stops at the first hit from the bottom). -/
def lastPresetIdx (name : String) (vals : List (List String)) : Option Nat :=
  (rowsWithIdx 0 vals).foldl
    (fun acc p => if 1 ≤ p.1 ∧ p.2 ≠ [] ∧ p.2.headD "" = name then some p.1 else acc) none

/-- Model of `delete_preset_by_name(name, actor)`. -/
def delete_preset_by_name (now : ℤ) (name actor : String) (presets audit : Ws) : Ws × Ws :=
  let ws := (ensure_presets_header presets).1
  let vals := getAllValues ws
  match lastPresetIdx name vals with
  | some i =>
    (wsDeleteRow (i + 1) ws,
     log_audit now actor "DELETE_PRESET" PRESETS_SHEET (intRepr (i + 1)) "-"
       (some [("Name", .s name)]) none audit)
  | none => (ws, audit)

/-! ## Dynamic users (`get_active_users`, `get_user_record`, `render_login`) -/

/-- Model of `get_active_users()`: the Active text is uppercased and matched
against the accepted spellings. -/
def get_active_users (usersWs : Ws) : List UserRec :=
  (load_users_df usersWs).filter (fun u => ["TRUE", "1", "YES", "Y"].contains (pyUpper u.active))

/-- Record returned by `get_user_record`, with the Active flag coerced. -/
structure UserAuthRec where
  sheetRow : Nat
  username : String
  displayName : String
  role : String
  password : String
  active : Bool
deriving DecidableEq, Repr

/-- Model of `get_user_record(username)`: first row matching the username. -/
def get_user_record (usersWs : Ws) (username : String) : Option UserAuthRec :=
  match (load_users_df usersWs).find? (fun u => u.username = username) with
  | none => none
  | some u =>
    some { sheetRow := u.sheetRow, username := u.username, displayName := u.displayName,
           role := u.role, password := u.password,
           active := ["TRUE", "1", "YES", "Y"].contains (pyUpper u.active) }

/-- Active rows selected at the top of `render_login` from the users frame it
is handed. -/
def render_login_active (dynamic_users : List UserRec) : List UserRec :=
  dynamic_users.filter (fun u => ["TRUE", "1", "YES", "Y"].contains (pyUpper u.active))

/-! ## Admin and team UI handlers (button bodies, state in, state out) -/

/-- Body of the `Save changes` button of the admin order editor: reject a
blank reason before mutating, otherwise call `update_order_row`. -/
def admin_save_changes (now : ℤ) (sheet_row : Nat) (cur : Snap)
    (new_client : String) (new_amount new_profit : ℚ) (reason actor : String)
    (orders audit : Ws) : Ws × Ws × Option String :=
  if pyStrip reason = "" then (orders, audit, some "Reason is required.")
  else
    match update_order_row now sheet_row
        [("Client", .s new_client), ("Amount", .n new_amount), ("ProfitPct", .n new_profit)]
        actor reason cur orders audit with
    | some p => (p.1, p.2, none)
    | none => (orders, audit, some "unreachable: numeric fields are floats")

/-- Body of the `Delete this order` button: reject a blank reason before
mutating, otherwise call `delete_order_row`. -/
def admin_delete_order (now : ℤ) (sheet_row : Nat) (cur : Snap) (reason actor : String)
    (orders audit : Ws) : Ws × Ws × Option String :=
  if pyStrip reason = "" then (orders, audit, some "Reason is required.")
  else
    let p := delete_order_row now sheet_row actor reason cur orders audit
    (p.1, p.2, none)

/-- Body of the `Delete client` button of the global client manager. -/
def admin_delete_client (now : ℤ) (row_id : Nat) (rec : Snap) (reason actor : String)
    (clients audit : Ws) : Ws × Ws × Option String :=
  if pyStrip reason = "" then (clients, audit, some "Reason is required.")
  else
    let p := delete_client_row now row_id actor reason rec clients audit
    (p.1, p.2, none)

/-- Body of the `Add client (global)` button: it calls `add_client` and
nothing else — in particular no audit call. -/
def admin_add_client_global (user client open_date : String) (clients audit : Ws) : Ws × Ws :=
  (add_client user client open_date clients, audit)

/-- Body of the `Create user` button. -/
def admin_create_user (now : ℤ) (actor new_un new_dn new_role pw_val : String)
    (users audit : Ws) : Ws × Ws × Option String :=
  if new_un = "" ∨ new_dn = "" then (users, audit, some "Username and Display name required.")
  else
    let udf := load_users_df users
    let ws := (ensure_users_sheet_seed users).1
    if udf.any (fun u => u.username = new_un) then (ws, audit, some "Username already exists.")
    else
      (ws ++ [[.s new_un, .s new_dn, .s new_role, .s pw_val, .s "TRUE"]],
       log_audit now actor "ADD_USER" USERS_SHEET "-" "-" none
         (some [("Username", .s new_un)]) audit, none)

/-- Body of the `Update user` button (role / active / password change). -/
def admin_update_user (now : ℤ) (actor sel_user new_role2 active2 new_pw2 : String)
    (users audit : Ws) : Ws × Ws × Option String :=
  match (load_users_df users).find? (fun u => u.username = sel_user) with
  | none => (users, audit, some "unreachable: user picked from the loaded list")
  | some row =>
    let ws := (ensure_users_sheet_seed users).1
    (wsUpdateRow row.sheetRow
       [.s row.username, .s row.displayName, .s new_role2,
        .s (if new_pw2 = "" then row.password else new_pw2), .s active2] ws,
     log_audit now actor "UPDATE_USER" USERS_SHEET (intRepr row.sheetRow) "-" none
       (some [("Username", .s row.username)]) audit, none)

/-- Body of the `Submit Order` button of the team reporter. -/
def team_submit_order (now : ℤ) (display_name client : String) (amount profit_pct : ℚ)
    (orders : Ws) : Ws × Option String :=
  if client = "(choose)" then (orders, some "Please choose a client.")
  else
    let ts := fmtTs now
    let profit_amt := pyRound2 (amount * profit_pct / 100)
    let new_row : Row := [.s ts, .s display_name, .s client, .n amount, .n profit_pct,
                          .n profit_amt, .s "In Process"]
    (append_order_row new_row orders, none)

/-! ## Router (the request-routing block hosted in `debug_google_access`) -/

/-- Inbound per-request state: process session token, post-logout flag, and
the cookie store (`none` when `get_all()` returned `None`, otherwise the
value the store reports for the auth cookie). -/
structure RouterState where
  sessionToken : Option String
  postLogout : Bool
  cookies : Option (Option String)
deriving DecidableEq, Repr

inductive RView where
  | login
  | team (name : String)
  | admin (name : String)
  | halt
deriving DecidableEq, Repr

structure RouterOut where
  sessionToken : Option String
  postLogout : Bool
  cookieCleared : Bool
  cookieSet : Option String
  view : RView
  inactiveMsg : Bool
deriving DecidableEq, Repr

/-- Truthiness of `cookies and cookies.get(COOKIE_NAME)`. -/
def cookieTruthy : Option (Option String) → Bool
  | some (some c) => c ≠ ""
  | _ => false

/-- Cookie-based branch of the router (the code after the session-token
check falls through to here). -/
def routerCookieBranch (now : ℤ) (users1 : Ws) (st : RouterState) : RouterOut :=
  match st.cookies with
  | none =>
    { sessionToken := st.sessionToken, postLogout := st.postLogout, cookieCleared := false,
      cookieSet := none, view := .halt, inactiveMsg := false }
  | some cval =>
    let user := match cval with
      | some t => if t ≠ "" then verify_token now t else none
      | none => none
    match user with
    | some u =>
      match get_user_record users1 u.username with
      | some rec =>
        if ¬ rec.active then
          { sessionToken := st.sessionToken, postLogout := st.postLogout, cookieCleared := true,
            cookieSet := none, view := .login, inactiveMsg := true }
        else
          { sessionToken := st.sessionToken, postLogout := st.postLogout, cookieCleared := false,
            cookieSet := none,
            view := if rec.role = "admin" then .admin u.name else .team u.name,
            inactiveMsg := false }
      | none =>
        { sessionToken := st.sessionToken, postLogout := st.postLogout, cookieCleared := true,
          cookieSet := none, view := .login, inactiveMsg := true }
    | none =>
      { sessionToken := st.sessionToken, postLogout := st.postLogout, cookieCleared := false,
        cookieSet := none, view := .login, inactiveMsg := false }

/-- Model of the routing block of `debug_google_access` (lines 722-771): the
logout cycle, the session-token path with its re-read of the Active flag,
then the cookie path.  The probing prologue of that function only writes to
the sidebar and is out of scope. -/
def routeRequest (now : ℤ) (usersWs : Ws) (st : RouterState) : RouterOut :=
  let users1 := (ensure_users_sheet_seed usersWs).1
  if st.postLogout then
    if cookieTruthy st.cookies then
      { sessionToken := st.sessionToken, postLogout := st.postLogout, cookieCleared := true,
        cookieSet := none, view := .halt, inactiveMsg := false }
    else
      { sessionToken := st.sessionToken, postLogout := false, cookieCleared := false,
        cookieSet := none, view := .login, inactiveMsg := false }
  else
    match st.sessionToken with
    | some sess_token =>
      match verify_token now sess_token with
      | some user =>
        match get_user_record users1 user.username with
        | some rec =>
          if ¬ rec.active then
            { sessionToken := none, postLogout := false, cookieCleared := true,
              cookieSet := none, view := .login, inactiveMsg := true }
          else
            { sessionToken := st.sessionToken, postLogout := false, cookieCleared := false,
              cookieSet := if st.cookies ≠ none ∧ ¬ cookieTruthy st.cookies
                           then some sess_token else none,
              view := if rec.role = "admin" then .admin user.name else .team user.name,
              inactiveMsg := false }
        | none =>
          { sessionToken := none, postLogout := false, cookieCleared := true,
            cookieSet := none, view := .login, inactiveMsg := true }
      | none => routerCookieBranch now users1 st
    | none => routerCookieBranch now users1 st

/-! ## Auxiliary lemmas: characters and decimal numerals -/

theorem toNat_ofNat_lt (n : Nat) (h : n < 55296) : (Char.ofNat n).toNat = n := by
  unfold Char.ofNat
  rw [dif_pos (Or.inl h)]
  rfl

theorem digitChar_toNat (d : Nat) (h : d < 10) : (digitChar d).toNat = 48 + d := by
  unfold digitChar
  exact toNat_ofNat_lt _ (by omega)

theorem natDigitsLE_lt10 (f n : Nat) : ∀ d ∈ natDigitsLE f n, d < 10 := by
  induction f generalizing n with
  | zero => simp [natDigitsLE]
  | succ f ih =>
    intro d hd
    simp only [natDigitsLE] at hd
    by_cases h : n < 10
    · simp [h] at hd; omega
    · simp [h] at hd
      rcases hd with h1 | h2
      · omega
      · exact ih _ _ h2

theorem natDigitsLE_ne_nil (f n : Nat) (hf : 0 < f) : natDigitsLE f n ≠ [] := by
  cases f with
  | zero => omega
  | succ f =>
    simp only [natDigitsLE]
    by_cases h : n < 10 <;> simp [h]

theorem foldl_digits_natDigitsLE (f : Nat) : ∀ n a, n ≤ f →
    List.foldl (fun x c => x * 10 + (c.toNat - 48)) a ((natDigitsLE f n).map digitChar).reverse =
      a * 10 ^ (natDigitsLE f n).length + n := by
  induction f with
  | zero => intro n a h; interval_cases n; simp [natDigitsLE]
  | succ f ih =>
    intro n a h
    simp only [natDigitsLE]
    by_cases hn : n < 10
    · simp [hn, digitChar_toNat n hn]
    · rw [if_neg hn]
      have hrec : n / 10 ≤ f := by omega
      simp only [List.map_cons, List.reverse_cons, List.foldl_append, List.foldl_cons,
        List.foldl_nil, List.length_cons]
      rw [ih (n / 10) a hrec]
      rw [digitChar_toNat (n % 10) (by omega)]
      have : 48 + n % 10 - 48 = n % 10 := by omega
      rw [this, pow_succ]
      have hdm := Nat.div_add_mod n 10
      ring_nf
      rw [Nat.add_assoc]
      congr 1
      omega

theorem digitVal?_digitChar (d : Nat) (h : d < 10) : (digitVal? (digitChar d)).isSome := by
  simp [digitVal?, digitChar_toNat d h]
  omega

theorem parseDigits_natRepr (n : Nat) : parseDigits (natRepr n) = some n := by
  unfold parseDigits natRepr
  rw [if_pos]
  · unfold decDigitsVal
    rw [foldl_digits_natDigitsLE (n + 1) n 0 (by omega)]
    simp
  · constructor
    · simp
      exact natDigitsLE_ne_nil _ _ (by omega)
    · rw [List.all_eq_true]
      intro c hc
      simp only [List.mem_reverse, List.mem_map] at hc
      obtain ⟨d, hd, rfl⟩ := hc
      exact digitVal?_digitChar d (natDigitsLE_lt10 _ _ d hd)

theorem natRepr_isDigit (n : Nat) : ∀ c ∈ natRepr n, 48 ≤ c.toNat ∧ c.toNat ≤ 57 := by
  intro c hc
  simp only [natRepr, List.mem_reverse, List.mem_map] at hc
  obtain ⟨d, hd, rfl⟩ := hc
  have := natDigitsLE_lt10 (n + 1) n d hd
  rw [digitChar_toNat d this]
  omega

theorem pySpace_of_digit (c : Char) (h : 48 ≤ c.toNat ∧ c.toNat ≤ 57) : pySpace c = false := by
  have hne : c ≠ ' ' ∧ c ≠ '\t' ∧ c ≠ '\n' ∧ c ≠ '\r' ∧ c ≠ '\x0b' ∧ c ≠ '\x0c' := by
    refine ⟨?_, ?_, ?_, ?_, ?_, ?_⟩ <;> (intro hc; subst hc; revert h; decide)
  simp [pySpace, hne.1, hne.2.1, hne.2.2.1, hne.2.2.2.1, hne.2.2.2.2.1, hne.2.2.2.2.2]

theorem dropWhile_eq_self_of_all (p : Char → Bool) (l : List Char)
    (h : ∀ c ∈ l, p c = false) : l.dropWhile p = l := by
  cases l with
  | nil => rfl
  | cons x xs => simp [List.dropWhile, h x (by simp)]

theorem pyStrip_of_noSpace (l : List Char) (h : ∀ c ∈ l, pySpace c = false) :
    pyStrip (String.mk l) = String.mk l := by
  unfold pyStrip
  rw [dropWhile_eq_self_of_all _ _ h]
  rw [dropWhile_eq_self_of_all _ _ (by intro c hc; exact h c (List.mem_reverse.mp hc))]
  rw [List.reverse_reverse]

theorem pyInt_strMk_natRepr (n : Nat) : pyInt (String.mk (natRepr n)) = some (n : ℤ) := by
  unfold pyInt
  rw [pyStrip_of_noSpace _ (fun c hc => pySpace_of_digit c (natRepr_isDigit n c hc))]
  have hne := natDigitsLE_ne_nil (n + 1) n (by omega)
  rcases hl : natRepr n with _ | ⟨c, rest⟩
  · exfalso
    apply hne
    unfold natRepr at hl
    simpa using hl
  · have hcd : 48 ≤ c.toNat ∧ c.toNat ≤ 57 := natRepr_isDigit n c (by rw [hl]; simp)
    have hcm : c ≠ '-' := by intro hceq; subst hceq; revert hcd; decide
    have hcp : c ≠ '+' := by intro hceq; subst hceq; revert hcd; decide
    simp only [hl, if_neg hcm, if_neg hcp]
    rw [← hl, parseDigits_natRepr]
    rfl

theorem pyInt_intRepr (z : ℤ) : pyInt (intRepr z) = some z := by
  unfold intRepr
  by_cases hz : z < 0
  · rw [if_pos hz]
    unfold pyInt
    rw [pyStrip_of_noSpace]
    · simp only [if_pos rfl]
      rw [parseDigits_natRepr]
      have hN : ((z.natAbs : ℕ) : ℤ) = -z := Int.ofNat_natAbs_of_nonpos (le_of_lt hz)
      simp [hN]
    · intro c hc
      simp only [List.mem_cons] at hc
      rcases hc with rfl | hc
      · decide
      · exact pySpace_of_digit c (natRepr_isDigit _ c hc)
  · rw [if_neg hz]
    rw [pyInt_strMk_natRepr]
    congr 1
    omega

theorem isDigit_ne_pipe (c : Char) (h : 48 ≤ c.toNat ∧ c.toNat ≤ 57) : c ≠ '|' := by
  intro hc
  subst hc
  revert h
  decide

theorem intRepr_no_pipe (z : ℤ) : '|' ∉ (intRepr z).data := by
  unfold intRepr
  by_cases hz : z < 0
  · rw [if_pos hz]
    intro h
    have h2 : '|' ∈ '-' :: natRepr z.natAbs := h
    rcases List.mem_cons.mp h2 with h3 | h3
    · exact absurd h3 (by decide)
    · exact isDigit_ne_pipe _ (natRepr_isDigit _ _ h3) rfl
  · rw [if_neg hz]
    intro h
    have h2 : '|' ∈ natRepr z.natAbs := h
    exact isDigit_ne_pipe _ (natRepr_isDigit _ _ h2) rfl

/-! ## Auxiliary lemmas: splitting -/

theorem splitOnce_of_not_mem (sep : Char) (u rest : List Char) (hu : sep ∉ u) :
    splitOnce sep (u ++ sep :: rest) = some (u, rest) := by
  induction u with
  | nil => simp [splitOnce]
  | cons x xs ih =>
    simp only [List.cons_append, splitOnce, List.append_eq]
    rw [if_neg (by rintro rfl; exact hu (List.mem_cons_self _ _))]
    rw [ih (fun h => hu (List.mem_cons_of_mem _ h))]
    rfl

theorem split3_concat (u nm e sig : List Char) (hu : '|' ∉ u) (hn : '|' ∉ nm)
    (he : '|' ∉ e) :
    split3 '|' (u ++ '|' :: (nm ++ '|' :: (e ++ '|' :: sig))) = some (u, nm, e, sig) := by
  unfold split3
  rw [splitOnce_of_not_mem _ _ _ hu]
  dsimp only
  rw [splitOnce_of_not_mem _ _ _ hn]
  dsimp only
  rw [splitOnce_of_not_mem _ _ _ he]

/-! ## Auxiliary lemmas: UTF-8 -/

theorem char_valid_ranges (c : Char) :
    c.toNat < 0xD800 ∨ (0xE000 ≤ c.toNat ∧ c.toNat < 0x110000) := by
  have h := c.valid
  exact h

theorem utf8Char_ascii (c : Char) (h : c.toNat < 128) : utf8Char c = [c.toNat] := by
  unfold utf8Char
  rw [if_pos h]

theorem utf8Encode_map_toNat (l : List Char) (h : ∀ c ∈ l, c.toNat < 128) :
    utf8Encode l = l.map Char.toNat := by
  induction l with
  | nil => rfl
  | cons c cs ih =>
    show utf8Char c ++ utf8Encode cs = _
    rw [utf8Char_ascii c (h c (by simp)), ih (fun x hx => h x (by simp [hx]))]
    rfl

theorem utf8Encode_map_ofNat (codes : List Nat) (h : ∀ v ∈ codes, v < 128) :
    utf8Encode (codes.map Char.ofNat) = codes := by
  induction codes with
  | nil => rfl
  | cons v vs ih =>
    have hv : v < 128 := h v (by simp)
    show utf8Char (Char.ofNat v) ++ utf8Encode (vs.map Char.ofNat) = _
    rw [utf8Char_ascii _ (by rw [toNat_ofNat_lt v (by omega)]; omega),
      toNat_ofNat_lt v (by omega), ih (fun x hx => h x (by simp [hx]))]
    rfl

theorem utf8DecodeOne_utf8Char (c : Char) (bs : List Nat) :
    utf8DecodeOne (utf8Char c ++ bs) = some (c, bs) := by
  have hval := char_valid_ranges c
  unfold utf8Char
  by_cases h1 : c.toNat < 0x80
  · rw [if_pos h1]
    simp only [List.cons_append, List.nil_append]
    unfold utf8DecodeOne
    dsimp only
    rw [if_pos h1, Char.ofNat_toNat]
  · by_cases h2 : c.toNat < 0x800
    · rw [if_neg h1, if_pos h2]
      simp only [List.cons_append, List.nil_append]
      unfold utf8DecodeOne
      dsimp only
      rw [if_neg (by omega), if_neg (by omega), if_pos (by omega)]
      rw [if_pos (by omega)]
      have hcp : (0xC0 + c.toNat / 64 - 0xC0) * 64 + (0x80 + c.toNat % 64 - 0x80) = c.toNat := by
        omega
      rw [hcp, Char.ofNat_toNat]
    · by_cases h3 : c.toNat < 0x10000
      · rw [if_neg h1, if_neg h2, if_pos h3]
        simp only [List.cons_append, List.nil_append]
        unfold utf8DecodeOne
        dsimp only
        rw [if_neg (by omega), if_neg (by omega), if_neg (by omega), if_pos (by omega)]
        have hcp : (0xE0 + c.toNat / 4096 - 0xE0) * 4096 + (0x80 + c.toNat / 64 % 64 - 0x80) * 64 +
            (0x80 + c.toNat % 64 - 0x80) = c.toNat := by omega
        rw [if_pos (by refine ⟨by omega, by omega, ?_, ?_⟩
                       · rw [hcp]; omega
                       · rw [hcp]; omega)]
        rw [hcp, Char.ofNat_toNat]
      · rw [if_neg h1, if_neg h2, if_neg h3]
        have h4 : c.toNat < 0x110000 := by omega
        simp only [List.cons_append, List.nil_append]
        unfold utf8DecodeOne
        dsimp only
        rw [if_neg (by omega), if_neg (by omega), if_neg (by omega), if_neg (by omega),
          if_pos (by omega)]
        have hcp : (0xF0 + c.toNat / 262144 - 0xF0) * 262144 +
            (0x80 + c.toNat / 4096 % 64 - 0x80) * 4096 +
            (0x80 + c.toNat / 64 % 64 - 0x80) * 64 + (0x80 + c.toNat % 64 - 0x80) = c.toNat := by
          omega
        rw [if_pos (by refine ⟨by omega, by omega, by omega, ?_, ?_⟩
                       · rw [hcp]; omega
                       · rw [hcp]; omega)]
        rw [hcp, Char.ofNat_toNat]

theorem utf8DecodeOne_length (bs : List Nat) (c : Char) (r : List Nat)
    (h : utf8DecodeOne bs = some (c, r)) : r.length < bs.length := by
  match bs with
  | [] => simp [utf8DecodeOne] at h
  | b :: rest =>
    unfold utf8DecodeOne at h
    dsimp only at h
    by_cases h1 : b < 0x80
    · rw [if_pos h1] at h
      simp only [Option.some.injEq, Prod.mk.injEq] at h
      obtain ⟨-, hr⟩ := h
      subst hr
      simp only [List.length_cons]
      omega
    · rw [if_neg h1] at h
      by_cases h2 : b < 0xC2
      · rw [if_pos h2] at h; exact absurd h (by simp)
      · rw [if_neg h2] at h
        by_cases h3 : b < 0xE0
        · rw [if_pos h3] at h
          match rest with
          | [] => exact absurd h (by simp)
          | b1 :: rest1 =>
            dsimp only at h
            split_ifs at h
            · simp only [Option.some.injEq, Prod.mk.injEq] at h
              obtain ⟨-, hr⟩ := h
              subst hr
              simp only [List.length_cons]
              omega
        · rw [if_neg h3] at h
          by_cases h4 : b < 0xF0
          · rw [if_pos h4] at h
            match rest with
            | [] => exact absurd h (by simp)
            | [b1] => exact absurd h (by simp)
            | b1 :: b2 :: rest2 =>
              dsimp only at h
              split_ifs at h
              · simp only [Option.some.injEq, Prod.mk.injEq] at h
                obtain ⟨-, hr⟩ := h
                subst hr
                simp only [List.length_cons]
                omega
          · rw [if_neg h4] at h
            by_cases h5 : b < 0xF5
            · rw [if_pos h5] at h
              match rest with
              | [] => exact absurd h (by simp)
              | [b1] => exact absurd h (by simp)
              | [b1, b2] => exact absurd h (by simp)
              | b1 :: b2 :: b3 :: rest3 =>
                dsimp only at h
                split_ifs at h
                · simp only [Option.some.injEq, Prod.mk.injEq] at h
                  obtain ⟨-, hr⟩ := h
                  subst hr
                  simp only [List.length_cons]
                  omega
            · rw [if_neg h5] at h
              exact absurd h (by simp)

theorem utf8DecodeF_fuel : ∀ (f1 f2 : Nat) (bs : List Nat), bs.length ≤ f1 → bs.length ≤ f2 →
    utf8DecodeF f1 bs = utf8DecodeF f2 bs := by
  intro f1
  induction f1 with
  | zero =>
    intro f2 bs h1 h2
    match bs with
    | [] =>
      match f2 with
      | 0 => rfl
      | g + 1 => rfl
    | b :: rest => simp at h1
  | succ f ih =>
    intro f2 bs h1 h2
    match bs with
    | [] =>
      match f2 with
      | 0 => rfl
      | g + 1 => rfl
    | b :: rest =>
      match f2 with
      | 0 => simp at h2
      | g2 + 1 =>
        simp only [utf8DecodeF]
        cases hdec : utf8DecodeOne (b :: rest) with
        | none => rfl
        | some p =>
          obtain ⟨pc, pr⟩ := p
          have hlen := utf8DecodeOne_length _ _ _ hdec
          simp only [List.length_cons] at h1 h2 hlen
          dsimp only
          rw [ih g2 pr (by omega) (by omega)]

theorem utf8Char_ne_nil (c : Char) : utf8Char c ≠ [] := by
  unfold utf8Char
  dsimp only
  split_ifs <;> simp

theorem utf8Decode_utf8Char_append (c : Char) (bs : List Nat) :
    utf8Decode (utf8Char c ++ bs) = (utf8Decode bs).map (fun cs => c :: cs) := by
  have hdec := utf8DecodeOne_utf8Char c bs
  match he : utf8Char c with
  | [] => exact absurd he (utf8Char_ne_nil c)
  | x :: xs =>
    rw [he] at hdec
    unfold utf8Decode
    simp only [List.cons_append, List.append_eq, List.length_cons, utf8DecodeF]
    rw [List.cons_append] at hdec
    rw [hdec]
    dsimp only
    rw [utf8DecodeF_fuel (xs ++ bs).length bs.length bs (by simp) (by omega)]

theorem utf8Decode_encode (l : List Char) : utf8Decode (utf8Encode l) = some l := by
  induction l with
  | nil => rfl
  | cons c cs ih =>
    show utf8Decode (utf8Char c ++ utf8Encode cs) = _
    rw [utf8Decode_utf8Char_append, ih]
    rfl

/-! ## Auxiliary lemmas: base64 -/

theorem b64ValStd_translate : ∀ v, v < 64 → b64ValStd (b64Translate (b64UrlChar v)) = some v := by
  decide

theorem b64Run_data (c v : Nat) (hc : b64ValStd c = some v) (rest : List Nat)
    (qp acc pads : Nat) (out : List Nat) :
    b64Run (c :: rest) qp acc pads out =
      if qp = 0 then b64Run rest 1 v pads out
      else if qp = 1 then b64Run rest 2 ((acc * 64 + v) % 16) pads (((acc * 64 + v) >>> 4) :: out)
      else if qp = 2 then b64Run rest 3 ((acc * 64 + v) % 4) pads (((acc * 64 + v) >>> 2) :: out)
      else b64Run rest 0 0 pads ((acc * 64 + v) :: out) := by
  simp only [b64Run, hc]

theorem b64Run_pad (rest : List Nat) (qp acc pads : Nat) (out : List Nat) :
    b64Run (61 :: rest) qp acc pads out =
      if 2 ≤ qp ∧ 4 ≤ qp + pads + 1 then some out.reverse
      else b64Run rest qp acc (if 2 ≤ qp then pads + 1 else pads) out := by
  have h61 : b64ValStd 61 = none := rfl
  simp only [b64Run, h61]
  rw [if_pos trivial]

theorem b64Run_enc : ∀ (bs : List Nat), (∀ b ∈ bs, b < 256) → ∀ (out : List Nat),
    b64Run ((b64EncChunks bs).map b64Translate) 0 0 0 out = some (out.reverse ++ bs)
  | [], _, out => by simp [b64EncChunks, b64Run]
  | [a], hb, out => by
    have ha : a < 256 := hb a (by simp)
    simp only [b64EncChunks, List.map_cons, List.map_nil]
    rw [b64Run_data _ _ (b64ValStd_translate (a / 4) (by omega)), if_pos rfl]
    rw [b64Run_data _ _ (b64ValStd_translate (a % 4 * 16) (by omega)),
      if_neg (by decide), if_pos rfl]
    rw [show b64Translate 61 = 61 from rfl, b64Run_pad, if_neg (by decide)]
    rw [b64Run_pad, if_pos (by decide)]
    rw [List.reverse_cons]
    have hX : (a / 4 * 64 + a % 4 * 16) >>> 4 = a := by
      rw [Nat.shiftRight_eq_div_pow]
      omega
    rw [hX]
  | [a, b] , hb, out => by
    have ha : a < 256 := hb a (by simp)
    have hbb : b < 256 := hb b (by simp)
    simp only [b64EncChunks, List.map_cons, List.map_nil]
    rw [b64Run_data _ _ (b64ValStd_translate (a / 4) (by omega)), if_pos rfl]
    rw [b64Run_data _ _ (b64ValStd_translate (a % 4 * 16 + b / 16) (by omega)),
      if_neg (by decide), if_pos rfl]
    rw [b64Run_data _ _ (b64ValStd_translate (b % 16 * 4) (by omega)),
      if_neg (by decide), if_neg (by decide), if_pos rfl]
    rw [show b64Translate 61 = 61 from rfl, b64Run_pad, if_pos (by decide)]
    have hX : (a / 4 * 64 + (a % 4 * 16 + b / 16)) >>> 4 = a := by
      rw [Nat.shiftRight_eq_div_pow]
      omega
    have hY : (a / 4 * 64 + (a % 4 * 16 + b / 16)) % 16 * 64 + b % 16 * 4 = 4 * b := by
      omega
    have hZ : ((a / 4 * 64 + (a % 4 * 16 + b / 16)) % 16 * 64 + b % 16 * 4) >>> 2 = b := by
      rw [hY, Nat.shiftRight_eq_div_pow]
      omega
    rw [hX, hZ]
    simp
  | a :: b :: c :: rest, hb, out => by
    have ha : a < 256 := hb a (by simp)
    have hbb : b < 256 := hb b (by simp)
    have hc : c < 256 := hb c (by simp)
    simp only [b64EncChunks, List.map_cons]
    rw [b64Run_data _ _ (b64ValStd_translate (a / 4) (by omega)), if_pos rfl]
    rw [b64Run_data _ _ (b64ValStd_translate (a % 4 * 16 + b / 16) (by omega)),
      if_neg (by decide), if_pos rfl]
    rw [b64Run_data _ _ (b64ValStd_translate (b % 16 * 4 + c / 64) (by omega)),
      if_neg (by decide), if_neg (by decide), if_pos rfl]
    rw [b64Run_data _ _ (b64ValStd_translate (c % 64) (by omega)),
      if_neg (by decide), if_neg (by decide), if_neg (by decide)]
    have hX : (a / 4 * 64 + (a % 4 * 16 + b / 16)) >>> 4 = a := by
      rw [Nat.shiftRight_eq_div_pow]
      omega
    have hZ : ((a / 4 * 64 + (a % 4 * 16 + b / 16)) % 16 * 64 + (b % 16 * 4 + c / 64)) >>> 2 =
        b := by
      rw [Nat.shiftRight_eq_div_pow]
      omega
    have hW : ((a / 4 * 64 + (a % 4 * 16 + b / 16)) % 16 * 64 + (b % 16 * 4 + c / 64)) % 4 * 64 +
        c % 64 = c := by omega
    rw [hX, hZ, hW]
    rw [b64Run_enc rest (fun x hx => hb x (by simp [hx])) (c :: b :: a :: out)]
    simp

theorem b64UrlChar_lt128 (v : Nat) : b64UrlChar v < 128 := by
  unfold b64UrlChar
  split_ifs <;> omega

theorem b64EncChunks_lt128 : ∀ (bs : List Nat), ∀ x ∈ b64EncChunks bs, x < 128
  | [] => by simp [b64EncChunks]
  | [a] => by
    simp only [b64EncChunks, List.mem_cons, List.not_mem_nil, or_false]
    rintro x (rfl | rfl | rfl | rfl) <;> first | exact b64UrlChar_lt128 _ | omega
  | [a, b] => by
    simp only [b64EncChunks, List.mem_cons, List.not_mem_nil, or_false]
    rintro x (rfl | rfl | rfl | rfl) <;> first | exact b64UrlChar_lt128 _ | omega
  | a :: b :: c :: rest => by
    simp only [b64EncChunks, List.mem_cons]
    rintro x (rfl | rfl | rfl | rfl | hx)
    · exact b64UrlChar_lt128 _
    · exact b64UrlChar_lt128 _
    · exact b64UrlChar_lt128 _
    · exact b64UrlChar_lt128 _
    · exact b64EncChunks_lt128 rest x hx

theorem urlsafeB64Decode_encode (bs : List Nat) (hb : ∀ b ∈ bs, b < 256) :
    urlsafeB64Decode (b64EncChunks bs) = some bs := by
  unfold urlsafeB64Decode
  rw [b64Run_enc bs hb []]
  simp

/-! ## Auxiliary lemmas: hex digests are ASCII without separators -/

theorem hexDigitChar_toNat (n : Nat) (h : n < 16) :
    (hexDigitChar n).toNat = if n < 10 then 48 + n else 87 + n := by
  unfold hexDigitChar
  split_ifs with h1
  · exact toNat_ofNat_lt _ (by omega)
  · exact toNat_ofNat_lt _ (by omega)

theorem sha256_lt256 (msg : List Nat) : ∀ b ∈ sha256 msg, b < 256 := by
  intro b hb
  unfold sha256 at hb
  rw [List.mem_flatMap] at hb
  obtain ⟨w, _, hbw⟩ := hb
  simp only [List.mem_cons, List.not_mem_nil, or_false] at hbw
  rcases hbw with rfl | rfl | rfl | rfl <;> exact Nat.mod_lt _ (by omega)

theorem hmacSha256_lt256 (key msg : List Nat) : ∀ b ∈ hmacSha256 key msg, b < 256 := by
  unfold hmacSha256
  exact sha256_lt256 _

theorem bytesToHex_ascii (bs : List Nat) (hb : ∀ b ∈ bs, b < 256) :
    ∀ c ∈ bytesToHex bs, c.toNat < 128 ∧ c ≠ '|' := by
  intro c hc
  unfold bytesToHex at hc
  rw [List.mem_flatMap] at hc
  obtain ⟨b, hbm, hcb⟩ := hc
  have hb256 := hb b hbm
  simp only [List.mem_cons, List.not_mem_nil, or_false] at hcb
  have hcn : c.toNat < 128 ∧ c.toNat ≠ 124 := by
    rcases hcb with rfl | rfl
    · rw [hexDigitChar_toNat (b / 16) (by omega)]
      split_ifs <;> omega
    · rw [hexDigitChar_toNat (b % 16) (by omega)]
      split_ifs <;> omega
  refine ⟨hcn.1, fun heq => hcn.2 ?_⟩
  rw [heq]
  rfl

theorem data_strMk (l : List Char) : (String.mk l).data = l := rfl

theorem signPayload_ascii (p : String) : isAsciiStr (signPayload p) = true := by
  unfold isAsciiStr signPayload
  rw [List.all_eq_true]
  intro c hc
  rw [data_strMk] at hc
  have := bytesToHex_ascii _ (hmacSha256_lt256 _ _) c hc
  simpa using this.1

theorem signPayload_no_pipe (p : String) : '|' ∉ (signPayload p).data := by
  intro hc
  rw [show (signPayload p).data =
      bytesToHex (hmacSha256 (utf8Encode COOKIE_SECRET.data) (utf8Encode p.data)) by
    unfold signPayload; rw [data_strMk]] at hc
  have := bytesToHex_ascii _ (hmacSha256_lt256 _ _) '|' hc
  exact this.2 rfl

theorem utf8Char_lt256 (c : Char) : ∀ b ∈ utf8Char c, b < 256 := by
  have hval := char_valid_ranges c
  unfold utf8Char
  by_cases h1 : c.toNat < 0x80
  · rw [if_pos h1]; intro b hb; simp at hb; omega
  · by_cases h2 : c.toNat < 0x800
    · rw [if_neg h1, if_pos h2]; intro b hb; simp at hb; rcases hb with rfl | rfl <;> omega
    · by_cases h3 : c.toNat < 0x10000
      · rw [if_neg h1, if_neg h2, if_pos h3]; intro b hb; simp at hb
        rcases hb with rfl | rfl | rfl <;> omega
      · rw [if_neg h1, if_neg h2, if_neg h3]; intro b hb; simp at hb
        rcases hb with rfl | rfl | rfl | rfl <;> omega

theorem utf8Encode_lt256 (l : List Char) : ∀ b ∈ utf8Encode l, b < 256 := by
  intro b hb
  unfold utf8Encode at hb
  rw [List.mem_flatMap] at hb
  obtain ⟨c, _, hbc⟩ := hb
  exact utf8Char_lt256 c b hbc

theorem strMk_data (s : String) : String.mk s.data = s := rfl

theorem compareDigest_self (s : String) (h : isAsciiStr s = true) :
    compareDigest s s = some true := by
  unfold compareDigest
  rw [if_pos ⟨h, h⟩]
  simp

/-- Master round-trip lemma for the token service: verifying a token issued
at `tis` for pipe-free username and display name succeeds exactly while
`now` has not passed the expiry second `tis + 15552000` (180 days). -/
theorem verify_token_issue_token (now tis : ℤ) (u nm : String)
    (hu : '|' ∉ u.data) (hn : '|' ∉ nm.data) :
    verify_token now (issue_token tis u nm) =
      if tis + 15552000 < now then none else some ⟨u, nm⟩ := by
  have hexp : tis + (COOKIE_EXPIRY_DAYS : ℤ) * 24 * 3600 = tis + 15552000 := by
    norm_num [COOKIE_EXPIRY_DAYS]
  have e1 : issue_token tis u nm =
      String.mk ((b64EncChunks (utf8Encode
        ((u ++ "|" ++ nm ++ "|" ++ intRepr (tis + (COOKIE_EXPIRY_DAYS : ℤ) * 24 * 3600) ++ "|" ++
          signPayload (u ++ "|" ++ nm ++ "|" ++
            intRepr (tis + (COOKIE_EXPIRY_DAYS : ℤ) * 24 * 3600))).data))).map Char.ofNat) := rfl
  rw [hexp] at e1
  rw [e1]
  unfold verify_token
  rw [data_strMk, utf8Encode_map_ofNat _ (b64EncChunks_lt128 _),
    urlsafeB64Decode_encode _ (utf8Encode_lt256 _)]
  dsimp only
  rw [utf8Decode_encode]
  dsimp only
  have hdata : (u ++ "|" ++ nm ++ "|" ++ intRepr (tis + 15552000) ++ "|" ++
      signPayload (u ++ "|" ++ nm ++ "|" ++ intRepr (tis + 15552000))).data =
      u.data ++ '|' :: (nm.data ++ '|' :: ((intRepr (tis + 15552000)).data ++ '|' ::
        (signPayload (u ++ "|" ++ nm ++ "|" ++ intRepr (tis + 15552000))).data)) := by
    simp only [String.data_append]
    simp [List.append_assoc]
  rw [hdata]
  rw [split3_concat _ _ _ _ hu hn (intRepr_no_pipe _)]
  dsimp only
  rw [strMk_data, strMk_data, strMk_data, strMk_data]
  rw [compareDigest_self _ (signPayload_ascii _)]
  dsimp only
  rw [if_pos rfl]
  rw [pyInt_intRepr]


/-! ## Auxiliary lemmas: snapshots -/

theorem find?_set_map_self (t : Snap) (k : String) (v : Cell)
    (hany : t.any (fun p => p.1 = k) = true) :
    List.find? (fun p => decide (p.1 = k)) (t.map (fun p => if p.1 = k then (k, v) else p)) =
      some (k, v) := by
  induction t with
  | nil => simp at hany
  | cons a t ih =>
    by_cases ha : a.1 = k
    · simp [List.find?, if_pos ha]
    · simp only [List.map_cons, if_neg ha, List.find?]
      rw [show (decide (a.1 = k)) = false from by simp [ha]]
      exact ih (by simpa [ha] using hany)

theorem find?_set_map_other (t : Snap) (k k2 : String) (v : Cell) (h : k ≠ k2) :
    List.find? (fun p => decide (p.1 = k)) (t.map (fun p => if p.1 = k2 then (k2, v) else p)) =
      List.find? (fun p => decide (p.1 = k)) t := by
  induction t with
  | nil => rfl
  | cons a t ih =>
    by_cases ha : a.1 = k2
    · simp only [List.map_cons, if_pos ha, List.find?]
      rw [show (decide (k2 = k)) = false from by simp [Ne.symm h]]
      rw [show (decide (a.1 = k)) = false from by rw [ha]; simp [Ne.symm h]]
      exact ih
    · simp only [List.map_cons, if_neg ha, List.find?]
      by_cases hk : a.1 = k
      · rw [show (decide (a.1 = k)) = true from by simp [hk]]
      · rw [show (decide (a.1 = k)) = false from by simp [hk]]
        exact ih

theorem snapLookup_snapSet_self (s : Snap) (k : String) (v : Cell) :
    snapLookup (snapSet s k v) k = some v := by
  unfold snapSet snapLookup
  by_cases h : s.any (fun p => p.1 = k)
  · rw [if_pos h, find?_set_map_self s k v (by simpa using h)]
    rfl
  · rw [if_neg h]
    induction s with
    | nil => simp [List.find?]
    | cons a t ih =>
      simp only [List.any_cons, Bool.or_eq_true, decide_eq_true_eq, not_or] at h
      simp only [List.cons_append, List.find?]
      rw [show (decide (a.1 = k)) = false from by simp [h.1]]
      exact ih (by simpa using h.2)

theorem snapLookup_snapSet_other (s : Snap) (k k2 : String) (v : Cell) (h : k ≠ k2) :
    snapLookup (snapSet s k2 v) k = snapLookup s k := by
  unfold snapSet snapLookup
  by_cases hs : s.any (fun p => p.1 = k2)
  · rw [if_pos hs, find?_set_map_other s k k2 v h]
  · rw [if_neg hs]
    induction s with
    | nil =>
      simp only [List.nil_append, List.find?]
      rw [show (decide (k2 = k)) = false from by simp [Ne.symm h]]
    | cons a t ih =>
      simp only [List.any_cons, Bool.or_eq_true, decide_eq_true_eq, not_or] at hs
      simp only [List.cons_append, List.find?]
      by_cases hk : a.1 = k
      · rw [show (decide (a.1 = k)) = true from by simp [hk]]
      · rw [show (decide (a.1 = k)) = false from by simp [hk]]
        exact ih (by simpa using hs.2)

theorem snapGet_eq_lookup (s : Snap) (k : String) (d : Cell) :
    snapGet s k d = (snapLookup s k).getD d := rfl

/-! ## Claim C1: token round trip -/

/-- C1 (counterexample): the claim "verify returns the identity iff `now` is
strictly before the expiry (issuance + 180 days); otherwise none" fails at
the boundary: at `now` exactly equal to the expiry second the code still
returns the identity, because `verify_token` rejects only when
`exp < now`. -/
theorem claim_C1_counterexample :
    verify_token 15552000 (issue_token 0 "u" "n") = some ⟨"u", "n"⟩ ∧
      ¬ ((15552000 : ℤ) < 0 + 15552000) := by
  constructor
  · rw [verify_token_issue_token 15552000 0 "u" "n" (by decide) (by decide)]
    norm_num
  · norm_num

/-- C1 (amended): for every username and display name not containing the
`|` field separator, and every issuance time and check time (epoch seconds),
verifying the issued token returns exactly the identity
`{username, display_name}` iff `now ≤` issuance + 180 days, and `none`
otherwise (the boundary second still verifies). -/
theorem claim_C1 (u nm : String) (hu : '|' ∉ u.data) (hn : '|' ∉ nm.data) (tis now : ℤ) :
    verify_token now (issue_token tis u nm) =
      if now ≤ tis + 15552000 then some ⟨u, nm⟩ else none := by
  rw [verify_token_issue_token now tis u nm hu hn]
  by_cases h : tis + 15552000 < now
  · rw [if_pos h, if_neg (by omega)]
  · rw [if_neg h, if_pos (by omega)]

/-- C1 (witness): the amended theorem applied at concrete inputs. -/
theorem claim_C1_witness :
    ('|' ∉ ("u" : String).data) ∧ ('|' ∉ ("n" : String).data) ∧
      verify_token 5 (issue_token 0 "u" "n") = some ⟨"u", "n"⟩ := by
  refine ⟨by decide, by decide, ?_⟩
  rw [claim_C1 "u" "n" (by decide) (by decide) 0 5]
  norm_num

/-! ## Claim C2: single-bit mutations of the encoded token -/

set_option maxRecDepth 100000 in
/-- C2 (counterexample): not every single-bit mutation of the encoded token
makes `verify_token` return `none`.  The token issued at time 0 for
`("u", "n")` ends in `…Q=`; flipping bit 1 of the character at index 102
(`Q` to `S`) changes only base64 bits the lenient decoder ignores, so the
mutated token still verifies to the same identity. -/
theorem claim_C2_counterexample :
    flipCharBit 102 2 (issue_token 0 "u" "n") ≠ issue_token 0 "u" "n" ∧
      verify_token 0 (flipCharBit 102 2 (issue_token 0 "u" "n")) = some ⟨"u", "n"⟩ := by
  constructor
  · decide
  · decide

set_option maxRecDepth 100000 in
/-- C2 (amended): a single-bit mutation of the encoded token need not make
`verify_token` return `none`: a flip that touches only base64 bits the
decoder discards (here bit 1 of the padding-adjacent character of a concrete
issued token) yields a different encoded token on which `verify_token`
agrees with the original at every check time.  `verify_token` itself never
throws: whenever base64 decoding of the (mutated) token fails it returns
`none`. -/
theorem claim_C2 :
    (flipCharBit 102 2 (issue_token 0 "u" "n") ≠ issue_token 0 "u" "n") ∧
    (∀ now : ℤ, verify_token now (flipCharBit 102 2 (issue_token 0 "u" "n")) =
      verify_token now (issue_token 0 "u" "n")) ∧
    (∀ (now : ℤ) (t : String), urlsafeB64Decode (utf8Encode t.data) = none →
      verify_token now t = none) := by
  refine ⟨by decide, ?_, ?_⟩
  · intro now
    unfold verify_token
    rw [show urlsafeB64Decode (utf8Encode (flipCharBit 102 2 (issue_token 0 "u" "n")).data) =
        urlsafeB64Decode (utf8Encode (issue_token 0 "u" "n").data) from by decide]
  · intro now t h
    unfold verify_token
    rw [h]

set_option maxRecDepth 100000 in
/-- C2 (witness): the amended theorem applied at concrete inputs (a token
that is not valid base64 at all). -/
theorem claim_C2_witness :
    urlsafeB64Decode (utf8Encode ("A" : String).data) = none ∧
      verify_token 3 "A" = none :=
  ⟨by decide, claim_C2.2.2 3 "A" (by decide)⟩

/-! ## Claim C5: profit computation -/

/-- C5: for all non-negative Amount and ProfitPct in [0, 100], order creation
stores `ProfitAmt = round(Amount * ProfitPct / 100, 2)` in the appended row,
and order edit recomputes the identical value into the full record it
writes; both sites use the same formula. -/
theorem claim_C5 (amount pct : ℚ) (h0 : 0 ≤ amount) (hp0 : 0 ≤ pct) (hp1 : pct ≤ 100) :
    (∀ (now : ℤ) (dn client : String) (orders : Ws), client ≠ "(choose)" →
      (team_submit_order now dn client amount pct orders).1 =
        (ensure_orders_header orders).1 ++
          [[Cell.s (fmtTs now), Cell.s dn, Cell.s client, Cell.n amount, Cell.n pct,
            Cell.n (pyRound2 (amount * pct / 100)), Cell.s "In Process"]]) ∧
    (∀ (now : ℤ) (nv old full : Snap),
      cellFloat (snapGet (snapUpdate old nv) "Amount" (Cell.n 0)) = some amount →
      cellFloat (snapGet (snapUpdate old nv) "ProfitPct" (Cell.n 0)) = some pct →
      uorFull now nv old = some full →
      snapLookup full "ProfitAmt" = some (Cell.n (pyRound2 (amount * pct / 100)))) := by
  constructor
  · intro now dn client orders hc
    unfold team_submit_order
    rw [if_neg hc]
    rfl
  · intro now nv old full hA hP hF
    unfold uorFull at hF
    dsimp only at hF
    rw [hA, hP] at hF
    dsimp only at hF
    rw [Option.some.injEq] at hF
    subst hF
    rw [snapLookup_snapSet_other _ _ _ _ (by decide), snapLookup_snapSet_self]

/-- C5 (witness): the creation branch applied at concrete inputs. -/
theorem claim_C5_witness :
    (0 : ℚ) ≤ 1 ∧ (0 : ℚ) ≤ 10 ∧ (10 : ℚ) ≤ 100 ∧ ("c" : String) ≠ "(choose)" ∧
      (team_submit_order 0 "d" "c" 1 10 [EXPECTED_HEADER.map Cell.s]).1 =
        (ensure_orders_header [EXPECTED_HEADER.map Cell.s]).1 ++
          [[Cell.s (fmtTs 0), Cell.s "d", Cell.s "c", Cell.n 1, Cell.n 10,
            Cell.n (pyRound2 (1 * 10 / 100)), Cell.s "In Process"]] :=
  ⟨by norm_num, by norm_num, by norm_num, by decide,
    (claim_C5 1 10 (by norm_num) (by norm_num) (by norm_num)).1 0 "d" "c" _ (by decide)⟩

/-! ## Claim C7: destructive order actions require a reason -/

/-- C7: an order edit or delete with an empty or whitespace-only reason is
rejected with a local error before any mutation (orders and audit sheets
unchanged, no audit entry appended); with a non-blank reason the handler
proceeds to `update_order_row` / `delete_order_row`. -/
theorem claim_C7 (now : ℤ) (sheet_row : Nat) (cur : Snap) (new_client : String)
    (new_amount new_profit : ℚ) (reason actor : String) (orders audit : Ws) :
    (pyStrip reason = "" →
      admin_save_changes now sheet_row cur new_client new_amount new_profit reason actor
          orders audit = (orders, audit, some "Reason is required.") ∧
      admin_delete_order now sheet_row cur reason actor orders audit =
        (orders, audit, some "Reason is required.")) ∧
    (pyStrip reason ≠ "" →
      (∃ p, update_order_row now sheet_row
          [("Client", Cell.s new_client), ("Amount", Cell.n new_amount),
           ("ProfitPct", Cell.n new_profit)] actor reason cur orders audit = some p ∧
        admin_save_changes now sheet_row cur new_client new_amount new_profit reason actor
          orders audit = (p.1, p.2, none)) ∧
      admin_delete_order now sheet_row cur reason actor orders audit =
        ((delete_order_row now sheet_row actor reason cur orders audit).1,
         (delete_order_row now sheet_row actor reason cur orders audit).2, none)) := by
  constructor
  · intro hempty
    constructor
    · unfold admin_save_changes
      rw [if_pos hempty]
    · unfold admin_delete_order
      rw [if_pos hempty]
  · intro hres
    have hamount : cellFloat (snapGet (snapUpdate cur
        [("Client", Cell.s new_client), ("Amount", Cell.n new_amount),
         ("ProfitPct", Cell.n new_profit)]) "Amount" (Cell.n 0)) = some new_amount := by
      show cellFloat (snapGet (snapSet (snapSet (snapSet cur "Client" (Cell.s new_client))
        "Amount" (Cell.n new_amount)) "ProfitPct" (Cell.n new_profit)) "Amount" (Cell.n 0)) = _
      rw [snapGet_eq_lookup, snapLookup_snapSet_other _ _ _ _ (by decide),
        snapLookup_snapSet_self]
      rfl
    have hpct : cellFloat (snapGet (snapUpdate cur
        [("Client", Cell.s new_client), ("Amount", Cell.n new_amount),
         ("ProfitPct", Cell.n new_profit)]) "ProfitPct" (Cell.n 0)) = some new_profit := by
      show cellFloat (snapGet (snapSet (snapSet (snapSet cur "Client" (Cell.s new_client))
        "Amount" (Cell.n new_amount)) "ProfitPct" (Cell.n new_profit)) "ProfitPct"
        (Cell.n 0)) = _
      rw [snapGet_eq_lookup, snapLookup_snapSet_self]
      rfl
    obtain ⟨F, hF⟩ : ∃ F, uorFull now
        [("Client", Cell.s new_client), ("Amount", Cell.n new_amount),
         ("ProfitPct", Cell.n new_profit)] cur = some F := by
      unfold uorFull
      dsimp only
      rw [hamount, hpct]
      exact ⟨_, rfl⟩
    have hupd : update_order_row now sheet_row
        [("Client", Cell.s new_client), ("Amount", Cell.n new_amount),
         ("ProfitPct", Cell.n new_profit)] actor reason cur orders audit =
        some (wsUpdateRow sheet_row (EXPECTED_HEADER.map (fun hh => snapGet F hh (Cell.s "")))
            (ensure_orders_header orders).1,
          log_audit now actor "EDIT_ORDER" ORDERS_SHEET (intRepr sheet_row) reason
            (some cur) (some F) audit) := by
      unfold update_order_row
      dsimp only
      rw [hF]
    refine ⟨⟨_, hupd, ?_⟩, ?_⟩
    · unfold admin_save_changes
      rw [if_neg hres, hupd]
    · unfold admin_delete_order
      rw [if_neg hres]

/-- C7 (witness): the rejection branch applied at concrete inputs. -/
theorem claim_C7_witness :
    pyStrip "  " = "" ∧
      admin_save_changes 0 2 [] "c" 1 2 "  " "boss" [] [] =
        ([], [], some "Reason is required.") :=
  ⟨by decide, ((claim_C7 0 2 [] "c" 1 2 "  " "boss" [] []).1 (by decide)).1⟩

/-! ## Claim C10: the Active-flag parsing rule -/

/-- C10: a user counts as active exactly when the uppercased Active text is
one of `TRUE`, `1`, `YES`, `Y`; any other value — the empty string included —
is inactive, and the same rule is computed by `get_active_users`, by the
login-screen filter and by `get_user_record`. -/
theorem claim_C10 :
    ((["TRUE", "1", "YES", "Y"].contains (pyUpper "")) = false) ∧
    (∀ s : String, (["TRUE", "1", "YES", "Y"].contains (pyUpper s)) = true ↔
      (pyUpper s = "TRUE" ∨ pyUpper s = "1" ∨ pyUpper s = "YES" ∨ pyUpper s = "Y")) ∧
    (∀ ws : Ws, get_active_users ws = (load_users_df ws).filter
      (fun u => ["TRUE", "1", "YES", "Y"].contains (pyUpper u.active))) ∧
    (∀ dyn : List UserRec, render_login_active dyn = dyn.filter
      (fun u => ["TRUE", "1", "YES", "Y"].contains (pyUpper u.active))) ∧
    (∀ (ws : Ws) (un : String), get_user_record ws un =
      ((load_users_df ws).find? (fun u => u.username = un)).map
        (fun u => { sheetRow := u.sheetRow, username := u.username,
                    displayName := u.displayName, role := u.role, password := u.password,
                    active := ["TRUE", "1", "YES", "Y"].contains (pyUpper u.active) })) := by
  refine ⟨by decide, ?_, fun ws => rfl, fun dyn => rfl, ?_⟩
  · intro s
    constructor
    · intro h
      simpa using h
    · intro h
      simpa using h
  · intro ws un
    unfold get_user_record
    cases (load_users_df ws).find? (fun u => u.username = un) with
    | none => rfl
    | some u => rfl

section RatKernelEval

/- `Rat.mul`, `Rat.add` and `Rat.inv` are `@[irreducible]` upstream, which
blocks the `decide` front end (the kernel itself reduces them fine); make
them semireducible locally so concrete worksheets holding numeric cells can
be evaluated in witnesses and counterexamples. -/
attribute [local semireducible] Rat.mul Rat.add Rat.inv

/-! ## Claim C4: Status is derived at read time -/

/-- C4 (counterexample): a derived Status value is persisted after all —
editing an order whose timestamp is more than 120 hours old writes the
recomputed string `Completed` into the Status column of the sheet row.  (The
loaders never read that cell back, but the claim's "never persisted" is
false.) -/
theorem claim_C4_counterexample :
    ((update_order_row 947120400 2
        [("Client", Cell.s "c"), ("Amount", Cell.n 1), ("ProfitPct", Cell.n 0)] "boss" "fix"
        [("Timestamp", Cell.s "2000-01-01 00:00:00"), ("User", Cell.s "d"),
         ("Client", Cell.s "c"), ("Amount", Cell.n 1), ("ProfitPct", Cell.n 0),
         ("ProfitAmt", Cell.n 0), ("Status", Cell.s "In Process")]
        [EXPECTED_HEADER.map Cell.s,
         [Cell.s "2000-01-01 00:00:00", Cell.s "d", Cell.s "c", Cell.n 1, Cell.n 0, Cell.n 0,
          Cell.s "In Process"]]
        [AUDIT_HEADER.map Cell.s]).map
      (fun p => (p.1.getD 1 []).getD 6 (Cell.s ""))) = some (Cell.s "Completed") := by
  decide

/-- C4 (amended): the Status of a loaded order row is derived at read time
from the stored Timestamp and the clock alone — `Completed` iff the age
`(now - timestamp)` is at least 120 hours, `In Process` otherwise (an
unparseable timestamp counts as age 0) — and the loader ignores whatever is
stored in the Status column, so two reads of the same stored row at
different times recompute Status from the stored Timestamp alone.  (Create
and edit do write a Status snapshot into the sheet, which reads never
consult.) -/
theorem claim_C4 :
    (∀ (now : ℤ) (hdr : List String) (i : Nat) (row : List String),
      (orderRecOfRow now hdr i row).status = liveStatus now (colVal hdr row "Timestamp")) ∧
    (∀ (now : ℤ) (tsText : String), liveStatus now tsText =
      if 120 ≤ (match parseTs tsText with
        | some t => ((now - t : ℤ) : ℚ) / 3600
        | none => 0) then "Completed" else "In Process") ∧
    (∀ (now : ℤ) (i : Nat) (row : List String) (v : String),
      orderRecOfRow now EXPECTED_HEADER i (row.set 6 v) =
        orderRecOfRow now EXPECTED_HEADER i row) := by
  refine ⟨fun now hdr i row => rfl, fun now tsText => rfl, ?_⟩
  intro now i row v
  have hcv : ∀ (hname : String) (k : Nat), lastIdxOf hname EXPECTED_HEADER = some k → k ≠ 6 →
      colVal EXPECTED_HEADER (row.set 6 v) hname = colVal EXPECTED_HEADER row hname := by
    intro hname k hk hne
    unfold colVal
    rw [hk]
    dsimp only
    simp only [List.getD]
    rw [List.get?_set_ne _ _ (by omega : (6 : Nat) ≠ k)]
  unfold orderRecOfRow
  rw [hcv "Timestamp" 0 rfl (by omega), hcv "User" 1 rfl (by omega),
    hcv "Client" 2 rfl (by omega), hcv "Amount" 3 rfl (by omega),
    hcv "ProfitPct" 4 rfl (by omega), hcv "ProfitAmt" 5 rfl (by omega)]

end RatKernelEval

/-! ## Worksheet-update lemmas (shared by the header and row-shift claims) -/

theorem length_setRowAt (f : Row → Row) :
    ∀ (ws : Ws) (i : Nat), (setRowAt i f ws).length = ws.length := by
  intro ws
  induction ws with
  | nil => intro i; simp [setRowAt]
  | cons r rs ih =>
    intro i
    cases i with
    | zero => simp [setRowAt]
    | succ n => simp [setRowAt, ih n]

theorem setRowAt_setRowAt (f g : Row → Row) :
    ∀ (ws : Ws) (i : Nat),
      setRowAt i f (setRowAt i g ws) = setRowAt i (fun r => f (g r)) ws := by
  intro ws
  induction ws with
  | nil => intro i; simp [setRowAt]
  | cons r rs ih =>
    intro i
    cases i with
    | zero => simp [setRowAt]
    | succ n => simp [setRowAt, ih n]

theorem padRowsTo_of_le (r : Nat) (ws : Ws) (h : r ≤ ws.length) : padRowsTo r ws = ws := by
  unfold padRowsTo
  rw [Nat.sub_eq_zero_of_le h]
  simp

theorem le_length_padRowsTo (r : Nat) (ws : Ws) : r ≤ (padRowsTo r ws).length := by
  unfold padRowsTo
  rw [List.length_append, List.length_replicate]
  omega

theorem setRowPrefix_idem (vals row : Row) :
    setRowPrefix vals (setRowPrefix vals row) = setRowPrefix vals row := by
  unfold setRowPrefix
  simp

theorem wsUpdateRow_idem (r : Nat) (vals : Row) (ws : Ws) :
    wsUpdateRow r vals (wsUpdateRow r vals ws) = wsUpdateRow r vals ws := by
  unfold wsUpdateRow
  rw [padRowsTo_of_le _ _ (by rw [length_setRowAt]; exact le_length_padRowsTo r ws)]
  rw [setRowAt_setRowAt]
  congr 1
  funext row
  exact setRowPrefix_idem vals row

theorem wsUpdateRow_one_cons (vals h : Row) (t : Ws) :
    wsUpdateRow 1 vals (h :: t) = setRowPrefix vals h :: t := by
  unfold wsUpdateRow padRowsTo
  simp [setRowAt]

theorem wsUpdateRow_one_nil (vals : Row) : wsUpdateRow 1 vals [] = [vals] := by
  simp [wsUpdateRow, padRowsTo, setRowAt, setRowPrefix]

theorem head_wsUpdateRow_one (vals : Row) (ws : Ws) :
    ∃ h t, wsUpdateRow 1 vals ws = setRowPrefix vals h :: t := by
  cases ws with
  | nil => exact ⟨[], [], by simp [wsUpdateRow_one_nil, setRowPrefix]⟩
  | cons h t => exact ⟨h, t, wsUpdateRow_one_cons vals h t⟩

theorem length_wsUpdateRow_ge (r : Nat) (vals : Row) (ws : Ws) :
    ws.length ≤ (wsUpdateRow r vals ws).length := by
  unfold wsUpdateRow
  rw [length_setRowAt]
  unfold padRowsTo
  rw [List.length_append]
  omega

theorem wsDeleteRow_cons (k : Nat) (h : Row) (t : Ws) :
    wsDeleteRow (k + 2) (h :: t) = h :: wsDeleteRow (k + 1) t := by
  unfold wsDeleteRow
  have e1 : k + 2 - 1 = k + 1 := rfl
  have e2 : k + 1 - 1 = k := rfl
  rw [e1, e2, List.take_succ_cons, List.drop_succ_cons, List.cons_append]

theorem rowValues1_cons (h : Row) (t : Ws) :
    rowValues1 (h :: t) = dropTrailingEmpty (h.map cellStr) := rfl

theorem rowValues1_nil : rowValues1 [] = [] := rfl

theorem ne_nil_of_rowValues1_ne_nil (ws : Ws) (h : rowValues1 ws ≠ []) : ws ≠ [] := by
  intro h0
  apply h
  rw [h0]
  exact rowValues1_nil

theorem map_cellStr_map_s (l : List String) : (l.map Cell.s).map cellStr = l := by
  induction l with
  | nil => rfl
  | cons a t ih => simp [cellStr, ih]

/-! ## Header-reconciliation lemmas -/

theorem ensure_orders_header_eq (ws : Ws) :
    ensure_orders_header ws = ensureHdr EXPECTED_HEADER ws := rfl

theorem ensure_clients_header_eq (ws : Ws) :
    ensure_clients_header ws = ensureHdr CLIENTS_HEADER ws := rfl

theorem ensure_presets_header_eq (ws : Ws) :
    ensure_presets_header ws = ensureHdr PRESETS_HEADER ws := rfl

theorem ensure_audit_header_eq (ws : Ws) :
    ensure_audit_header ws = ensureHdr AUDIT_HEADER ws := rfl

theorem ensureHdr_cases (hdr : List String) (ws : Ws) :
    ensureHdr hdr ws = (wsUpdateRow 1 (hdr.map Cell.s) ws, true) ∨
      (ensureHdr hdr ws = (ws, false) ∧ ws ≠ [] ∧ rowValues1 ws = hdr) := by
  by_cases h : ws = [] ∨ rowValues1 ws ≠ hdr
  · left
    unfold ensureHdr
    rw [if_pos h]
  · right
    push_neg at h
    refine ⟨?_, h.1, h.2⟩
    unfold ensureHdr
    rw [if_neg (by push_neg; exact h)]

theorem ensureHdr_no_write (hdr : List String) (ws1 : Ws) (hws : ws1 ≠ [])
    (h : rowValues1 ws1 = hdr) : ensureHdr hdr ws1 = (ws1, false) := by
  unfold ensureHdr
  rw [if_neg (by push_neg; exact ⟨hws, h⟩)]

theorem ensureHdr_state_idem (hdr : List String) (ws : Ws) :
    (ensureHdr hdr (ensureHdr hdr ws).1).1 = (ensureHdr hdr ws).1 := by
  rcases ensureHdr_cases hdr ws with h1 | ⟨h1, _, _⟩
  · rw [h1]
    dsimp only
    rcases ensureHdr_cases hdr (wsUpdateRow 1 (hdr.map Cell.s) ws) with h2 | ⟨h2, _, _⟩
    · rw [h2]
      dsimp only
      exact wsUpdateRow_idem 1 _ ws
    · rw [h2]
  · rw [h1]
    dsimp only
    rw [h1]

theorem ensureHdr_delete_stable (hdr : List String) (R : Nat) (hR : 2 ≤ R) (ws : Ws) :
    (ensureHdr hdr (wsDeleteRow R (ensureHdr hdr ws).1)).1 =
      wsDeleteRow R (ensureHdr hdr ws).1 := by
  obtain ⟨k, rfl⟩ : ∃ k, R = k + 2 := ⟨R - 2, by omega⟩
  rcases ensureHdr_cases hdr ws with h1 | ⟨h1, hne1, hrv1⟩
  · rw [h1]
    dsimp only
    obtain ⟨h0, t0, hsh⟩ := head_wsUpdateRow_one (hdr.map Cell.s) ws
    rw [hsh, wsDeleteRow_cons]
    rcases ensureHdr_cases hdr
        (setRowPrefix (hdr.map Cell.s) h0 :: wsDeleteRow (k + 1) t0) with h2 | ⟨h2, _, _⟩
    · rw [h2]
      dsimp only
      rw [wsUpdateRow_one_cons, setRowPrefix_idem]
    · rw [h2]
  · rw [h1]
    dsimp only
    cases ws with
    | nil => exact absurd rfl hne1
    | cons h0 t0 =>
      rw [wsDeleteRow_cons]
      rw [ensureHdr_no_write hdr _ (by simp) (by rw [rowValues1_cons, ← rowValues1_cons h0 t0]; exact hrv1)]

theorem wsUpdateRow_cons2 (k : Nat) (vals h : Row) (t : Ws) :
    wsUpdateRow (k + 2) vals (h :: t) = h :: wsUpdateRow (k + 1) vals t := by
  unfold wsUpdateRow padRowsTo
  have hc : k + 2 - (h :: t).length = k + 1 - t.length := by
    rw [List.length_cons]; omega
  rw [hc]
  have h1 : k + 2 - 1 = k + 1 := by omega
  have h2 : k + 1 - 1 = k := by omega
  rw [h1, h2]
  simp [setRowAt]

theorem wsUpdateRows_cons_ge2 (valss : List Row) :
    ∀ (k : Nat) (h : Row) (t : Ws),
      ∃ t', wsUpdateRows (k + 2) valss (h :: t) = h :: t' := by
  induction valss with
  | nil => intro k h t; exact ⟨t, rfl⟩
  | cons v vs ih =>
    intro k h t
    show ∃ t', wsUpdateRows (k + 2 + 1) vs (wsUpdateRow (k + 2) v (h :: t)) = h :: t'
    rw [wsUpdateRow_cons2]
    exact ih (k + 1) h (wsUpdateRow (k + 1) v t)

theorem ensure_users_ne_nil_eq (h : Row) (t : Ws) :
    ensure_users_sheet_seed (h :: t) = ensureHdr USERS_HEADER (h :: t) := by
  unfold ensure_users_sheet_seed ensureHdr
  rw [if_neg (List.cons_ne_nil h t)]
  by_cases hc : rowValues1 (h :: t) ≠ USERS_HEADER
  · rw [if_pos hc, if_pos (Or.inr hc)]
  · rw [if_neg hc, if_neg (by push_neg; push_neg at hc; exact ⟨List.cons_ne_nil h t, hc⟩)]

theorem ensure_users_no_write (ws1 : Ws) (hws : ws1 ≠ [])
    (h : rowValues1 ws1 = USERS_HEADER) : ensure_users_sheet_seed ws1 = (ws1, false) := by
  cases ws1 with
  | nil => exact absurd rfl hws
  | cons a t =>
    rw [ensure_users_ne_nil_eq]
    exact ensureHdr_no_write USERS_HEADER _ hws h

theorem ensure_users_nil_shape :
    ∃ t, (ensure_users_sheet_seed []).1 = (USERS_HEADER.map Cell.s) :: t ∧
      rowValues1 ((USERS_HEADER.map Cell.s) :: t) = USERS_HEADER := by
  have hsh : (ensure_users_sheet_seed []).1 =
      wsUpdateRows 2 (SEED_USERS.map (fun u => u.map Cell.s)) [USERS_HEADER.map Cell.s] := by
    unfold ensure_users_sheet_seed
    rw [if_pos rfl]
    dsimp only
    rw [wsUpdateRow_one_nil]
  obtain ⟨t, ht⟩ := wsUpdateRows_cons_ge2 (SEED_USERS.map (fun u => u.map Cell.s)) 0
    (USERS_HEADER.map Cell.s) []
  have h02 : (0 : Nat) + 2 = 2 := rfl
  rw [h02] at ht
  refine ⟨t, by rw [hsh, ht], ?_⟩
  rw [rowValues1_cons, map_cellStr_map_s]
  decide

theorem ensure_users_state_idem (ws : Ws) :
    (ensure_users_sheet_seed (ensure_users_sheet_seed ws).1).1 =
      (ensure_users_sheet_seed ws).1 := by
  cases ws with
  | nil =>
    obtain ⟨t, ht, hrv⟩ := ensure_users_nil_shape
    rw [ht, ensure_users_no_write _ (by simp) hrv]
  | cons h t =>
    rw [ensure_users_ne_nil_eq]
    rcases ensureHdr_cases USERS_HEADER (h :: t) with h1 | ⟨h1, _, _⟩
    · rw [h1]
      dsimp only
      rw [wsUpdateRow_one_cons]
      rw [ensure_users_ne_nil_eq]
      rcases ensureHdr_cases USERS_HEADER
          (setRowPrefix (USERS_HEADER.map Cell.s) h :: t) with h2 | ⟨h2, _, _⟩
      · rw [h2]
        dsimp only
        rw [wsUpdateRow_one_cons, setRowPrefix_idem]
      · rw [h2]
    · rw [h1]
      dsimp only
      rw [ensure_users_ne_nil_eq, h1]

/-! ## Claim C6: header-reconciliation idempotence -/

/-- C6 (counterexample): the second reconciliation call is not always
write-free.  A sheet whose first row is the expected header followed by a
junk cell makes `ensure_orders_header` issue an update on every call (the
update rewrites the header prefix and leaves the junk cell, so the row
still fails the `row_values(1) == EXPECTED_HEADER` test); the state after
the second call nevertheless equals the state after the first. -/
theorem claim_C6_counterexample :
    (ensure_orders_header
        (ensure_orders_header [EXPECTED_HEADER.map Cell.s ++ [Cell.s "X"]]).1).2 = true ∧
      (ensure_orders_header
          (ensure_orders_header [EXPECTED_HEADER.map Cell.s ++ [Cell.s "X"]]).1).1 =
        (ensure_orders_header [EXPECTED_HEADER.map Cell.s ++ [Cell.s "X"]]).1 := by
  constructor
  · decide
  · decide

/-- C6 (amended): for every table, a second header-reconciliation call
immediately after a first leaves the table state identical to the state
after the first call; and whenever the first call actually leaves row 1
reading back exactly as the expected header (in particular on every sheet
whose first row carries no junk after the header), the second call
performs no write. -/
theorem claim_C6 :
    (∀ ws : Ws, (ensure_orders_header (ensure_orders_header ws).1).1 =
      (ensure_orders_header ws).1) ∧
    (∀ ws : Ws, rowValues1 (ensure_orders_header ws).1 = EXPECTED_HEADER →
      ensure_orders_header (ensure_orders_header ws).1 = ((ensure_orders_header ws).1, false)) ∧
    (∀ ws : Ws, (ensure_clients_header (ensure_clients_header ws).1).1 =
      (ensure_clients_header ws).1) ∧
    (∀ ws : Ws, (ensure_presets_header (ensure_presets_header ws).1).1 =
      (ensure_presets_header ws).1) ∧
    (∀ ws : Ws, (ensure_audit_header (ensure_audit_header ws).1).1 =
      (ensure_audit_header ws).1) ∧
    (∀ ws : Ws, (ensure_users_sheet_seed (ensure_users_sheet_seed ws).1).1 =
      (ensure_users_sheet_seed ws).1) ∧
    (∀ ws : Ws, rowValues1 (ensure_users_sheet_seed ws).1 = USERS_HEADER →
      ensure_users_sheet_seed (ensure_users_sheet_seed ws).1 =
        ((ensure_users_sheet_seed ws).1, false)) := by
  refine ⟨?_, ?_, ?_, ?_, ?_, ensure_users_state_idem, ?_⟩
  · intro ws
    simp only [ensure_orders_header_eq]
    exact ensureHdr_state_idem EXPECTED_HEADER ws
  · intro ws h
    simp only [ensure_orders_header_eq] at h ⊢
    exact ensureHdr_no_write EXPECTED_HEADER _
      (ne_nil_of_rowValues1_ne_nil _ (by rw [h]; decide)) h
  · intro ws
    simp only [ensure_clients_header_eq]
    exact ensureHdr_state_idem CLIENTS_HEADER ws
  · intro ws
    simp only [ensure_presets_header_eq]
    exact ensureHdr_state_idem PRESETS_HEADER ws
  · intro ws
    simp only [ensure_audit_header_eq]
    exact ensureHdr_state_idem AUDIT_HEADER ws
  · intro ws h
    exact ensure_users_no_write _
      (ne_nil_of_rowValues1_ne_nil _ (by rw [h]; decide)) h

/-- C6 (witness): the conditional parts of the amended theorem applied to
the empty orders sheet and the empty users sheet, whose first calls write
clean headers. -/
theorem claim_C6_witness :
    ensure_orders_header (ensure_orders_header ([] : Ws)).1 =
        ((ensure_orders_header ([] : Ws)).1, false) ∧
      ensure_users_sheet_seed (ensure_users_sheet_seed ([] : Ws)).1 =
        ((ensure_users_sheet_seed ([] : Ws)).1, false) :=
  ⟨claim_C6.2.1 [] (by decide), claim_C6.2.2.2.2.2.2 [] (by decide)⟩

/-! ## Row-enumeration lemmas (for the row-shift claim) -/

theorem rowsWithIdx_append (a : List (List String)) :
    ∀ (s : Nat) (b : List (List String)),
      rowsWithIdx s (a ++ b) = rowsWithIdx s a ++ rowsWithIdx (s + a.length) b := by
  induction a with
  | nil => intro s b; simp [rowsWithIdx]
  | cons x xs ih =>
    intro s b
    simp only [List.cons_append, List.append_eq, rowsWithIdx, ih (s + 1) b, List.length_cons]
    rw [show s + (xs.length + 1) = s + 1 + xs.length from by omega]

theorem rowsWithIdx_take :
    ∀ (d : List (List String)) (s k : Nat),
      (rowsWithIdx s d).take k = rowsWithIdx s (d.take k) := by
  intro d
  induction d with
  | nil => intro s k; simp [rowsWithIdx]
  | cons x xs ih =>
    intro s k
    cases k with
    | zero => simp [rowsWithIdx]
    | succ m => simp [rowsWithIdx, List.take_succ_cons, ih (s + 1) m]

theorem rowsWithIdx_drop :
    ∀ (d : List (List String)) (s k : Nat),
      (rowsWithIdx s d).drop k = rowsWithIdx (s + k) (d.drop k) := by
  intro d
  induction d with
  | nil => intro s k; simp [rowsWithIdx]
  | cons x xs ih =>
    intro s k
    cases k with
    | zero => simp [rowsWithIdx]
    | succ m =>
      simp only [rowsWithIdx, List.drop_succ_cons, ih (s + 1) m]
      rw [show s + 1 + m = s + (m + 1) from by omega]

theorem map_rowsWithIdx_succ {α : Type} (F G : Nat × List String → α)
    (hFG : ∀ i r, G (i + 1, r) = F (i, r)) :
    ∀ (l : List (List String)) (s : Nat),
      (rowsWithIdx (s + 1) l).map G = (rowsWithIdx s l).map F := by
  intro l
  induction l with
  | nil => intro s; rfl
  | cons x xs ih =>
    intro s
    simp only [rowsWithIdx, List.map_cons, hFG s x, ih (s + 1)]

theorem getAllValues_wsDeleteRow (R : Nat) (ws : Ws) :
    getAllValues (wsDeleteRow R ws) =
      (getAllValues ws).take (R - 1) ++ (getAllValues ws).drop R := by
  simp [getAllValues, wsDeleteRow, List.map_take, List.map_drop]

theorem headD_deleted (a : List String) (t : List (List String)) (k : Nat) :
    (((a :: t).take (k + 1) ++ (a :: t).drop (k + 2)).headD []) = a := by
  rw [List.take_succ_cons, List.drop_succ_cons, List.cons_append]
  rfl

theorem drop_one_deleted (a : List String) (t : List (List String)) (k : Nat) :
    ((a :: t).take (k + 1) ++ (a :: t).drop (k + 2)).drop 1 =
      t.take k ++ t.drop (k + 1) := by
  rw [List.take_succ_cons, List.drop_succ_cons, List.cons_append, List.drop_succ_cons,
    List.drop_zero]

theorem length_ensureHdr_ge (hdr : List String) (ws : Ws) :
    ws.length ≤ (ensureHdr hdr ws).1.length := by
  rcases ensureHdr_cases hdr ws with h | ⟨h, _, _⟩
  · rw [h]; exact length_wsUpdateRow_ge 1 _ ws
  · rw [h]

theorem rowsWithIdx_delete_map {α : Type} (F : Nat → List String → α) (G : α → α)
    (hFG : ∀ i r, G (F (i + 1) r) = F i r) (d : List (List String)) (k : Nat) :
    (rowsWithIdx 2 (d.take k ++ d.drop (k + 1))).map (fun p => F p.1 p.2) =
      ((rowsWithIdx 2 d).map (fun p => F p.1 p.2)).take k ++
        (((rowsWithIdx 2 d).map (fun p => F p.1 p.2)).drop (k + 1)).map G := by
  rw [rowsWithIdx_append, List.map_append]
  congr 1
  · rw [← List.map_take, rowsWithIdx_take]
  · rw [← List.map_drop, rowsWithIdx_drop, List.map_map]
    rcases le_or_lt k d.length with hk | hk
    · rw [List.length_take, show min k d.length = k from by omega,
        show (2 : Nat) + (k + 1) = 2 + k + 1 from by omega]
      exact (map_rowsWithIdx_succ (fun p => F p.1 p.2)
        (fun p => G (F p.1 p.2)) (fun i r => hFG i r) (d.drop (k + 1)) (2 + k)).symm
    · rw [List.drop_eq_nil_of_le (show d.length ≤ k + 1 by omega)]
      rfl

/-! ## Loader representations (guard-free forms of the two dataframe loads) -/

theorem load_orders_eq (now : ℤ) (ws : Ws) :
    load_orders_with_rows now ws =
      (rowsWithIdx 2 ((getAllValues (ensure_orders_header ws).1).drop 1)).map
        (fun p =>
          orderRecOfRow now ((getAllValues (ensure_orders_header ws).1).headD []) p.1 p.2) := by
  simp only [load_orders_with_rows]
  by_cases h : (getAllValues (ensure_orders_header ws).1).length ≤ 1
  · rw [if_pos h]
    have hd : (getAllValues (ensure_orders_header ws).1).drop 1 = [] := by
      rcases hgl : getAllValues (ensure_orders_header ws).1 with _ | ⟨a, _ | ⟨b, u⟩⟩
      · rfl
      · rfl
      · rw [hgl] at h
        simp at h
    rw [hd]
    rfl
  · rw [if_neg h]

theorem load_clients_eq (ws : Ws) :
    load_clients_df ws =
      (rowsWithIdx 2 ((getAllValues (ensure_clients_header ws).1).drop 1)).map
        (fun p =>
          clientRecOfRow ((getAllValues (ensure_clients_header ws).1).headD []) p.1 p.2) := by
  simp only [load_clients_df]
  by_cases h : (getAllValues (ensure_clients_header ws).1).length ≤ 1
  · rw [if_pos h]
    have hd : (getAllValues (ensure_clients_header ws).1).drop 1 = [] := by
      rcases hgl : getAllValues (ensure_clients_header ws).1 with _ | ⟨a, _ | ⟨b, u⟩⟩
      · rfl
      · rfl
      · rw [hgl] at h
        simp at h
    rw [hd]
    rfl
  · rw [if_neg h]

theorem load_orders_delete_shift (now : ℤ) (ws : Ws) (k : Nat)
    (hRle : k + 2 ≤ ws.length) :
    load_orders_with_rows now (wsDeleteRow (k + 2) (ensure_orders_header ws).1) =
      (load_orders_with_rows now ws).take k ++
        ((load_orders_with_rows now ws).drop (k + 1)).map
          (fun rec => { rec with sheetRow := rec.sheetRow - 1 }) := by
  have hstab : (ensure_orders_header (wsDeleteRow (k + 2) (ensure_orders_header ws).1)).1 =
      wsDeleteRow (k + 2) (ensure_orders_header ws).1 := by
    simp only [ensure_orders_header_eq]
    exact ensureHdr_delete_stable EXPECTED_HEADER (k + 2) (by omega) ws
  have hlen : k + 2 ≤ (getAllValues (ensure_orders_header ws).1).length := by
    simp only [getAllValues, List.length_map]
    calc k + 2 ≤ ws.length := hRle
      _ ≤ _ := by simp only [ensure_orders_header_eq]; exact length_ensureHdr_ge _ ws
  obtain ⟨a, t, hA⟩ : ∃ a t, getAllValues (ensure_orders_header ws).1 = a :: t := by
    rcases hgl : getAllValues (ensure_orders_header ws).1 with _ | ⟨a, t⟩
    · rw [hgl] at hlen; simp at hlen
    · exact ⟨a, t, rfl⟩
  rw [load_orders_eq now (wsDeleteRow (k + 2) (ensure_orders_header ws).1),
    load_orders_eq now ws, hstab, getAllValues_wsDeleteRow]
  have e1 : k + 2 - 1 = k + 1 := rfl
  rw [e1, hA, headD_deleted, drop_one_deleted,
    show (a :: t).headD [] = a from rfl, show (a :: t).drop 1 = t from rfl]
  exact rowsWithIdx_delete_map (fun i r => orderRecOfRow now a i r)
    (fun rec => { rec with sheetRow := rec.sheetRow - 1 })
    (fun i r => by simp [orderRecOfRow]) t k

theorem load_clients_delete_shift (ws : Ws) (k : Nat)
    (hRle : k + 2 ≤ ws.length) :
    load_clients_df (wsDeleteRow (k + 2) (ensure_clients_header ws).1) =
      (load_clients_df ws).take k ++
        ((load_clients_df ws).drop (k + 1)).map
          (fun rec => { rec with sheetRow := rec.sheetRow - 1 }) := by
  have hstab : (ensure_clients_header (wsDeleteRow (k + 2) (ensure_clients_header ws).1)).1 =
      wsDeleteRow (k + 2) (ensure_clients_header ws).1 := by
    simp only [ensure_clients_header_eq]
    exact ensureHdr_delete_stable CLIENTS_HEADER (k + 2) (by omega) ws
  have hlen : k + 2 ≤ (getAllValues (ensure_clients_header ws).1).length := by
    simp only [getAllValues, List.length_map]
    calc k + 2 ≤ ws.length := hRle
      _ ≤ _ := by simp only [ensure_clients_header_eq]; exact length_ensureHdr_ge _ ws
  obtain ⟨a, t, hA⟩ : ∃ a t, getAllValues (ensure_clients_header ws).1 = a :: t := by
    rcases hgl : getAllValues (ensure_clients_header ws).1 with _ | ⟨a, t⟩
    · rw [hgl] at hlen; simp at hlen
    · exact ⟨a, t, rfl⟩
  rw [load_clients_eq (wsDeleteRow (k + 2) (ensure_clients_header ws).1),
    load_clients_eq ws, hstab, getAllValues_wsDeleteRow]
  have e1 : k + 2 - 1 = k + 1 := rfl
  rw [e1, hA, headD_deleted, drop_one_deleted,
    show (a :: t).headD [] = a from rfl, show (a :: t).drop 1 = t from rfl]
  exact rowsWithIdx_delete_map (fun i r => clientRecOfRow a i r)
    (fun rec => { rec with sheetRow := rec.sheetRow - 1 })
    (fun i r => by simp [clientRecOfRow]) t k

/-! ## Claim C3: the row-shift invariant of deletion -/

/-- C3: deleting the (1-based) sheet row `R` through `delete_order_row`
(resp. `delete_client_row`) removes exactly the loaded record at sheet row
`R`: the subsequent load equals the records previously below `R` unchanged,
followed by the records previously above `R` with their sheet-row index
decremented by one (records at data position `j` carry sheet row `j + 2`,
so the record removed is the one addressed `R` and every record previously
addressed `R' > R` is now addressed `R' - 1`). -/
theorem claim_C3 (now : ℤ) (ws audit : Ws) (R : Nat) (actor reason : String) (old : Snap)
    (hR2 : 2 ≤ R) (hRle : R ≤ ws.length) :
    load_orders_with_rows now (delete_order_row now R actor reason old ws audit).1 =
        (load_orders_with_rows now ws).take (R - 2) ++
          ((load_orders_with_rows now ws).drop (R - 1)).map
            (fun rec => { rec with sheetRow := rec.sheetRow - 1 }) ∧
      load_clients_df (delete_client_row now R actor reason old ws audit).1 =
        (load_clients_df ws).take (R - 2) ++
          ((load_clients_df ws).drop (R - 1)).map
            (fun rec => { rec with sheetRow := rec.sheetRow - 1 }) := by
  obtain ⟨k, rfl⟩ : ∃ k, R = k + 2 := ⟨R - 2, by omega⟩
  have e2 : k + 2 - 2 = k := rfl
  have e1 : k + 2 - 1 = k + 1 := rfl
  constructor
  · rw [e2, e1,
      show (delete_order_row now (k + 2) actor reason old ws audit).1 =
        wsDeleteRow (k + 2) (ensure_orders_header ws).1 from rfl]
    exact load_orders_delete_shift now ws k hRle
  · rw [e2, e1,
      show (delete_client_row now (k + 2) actor reason old ws audit).1 =
        wsDeleteRow (k + 2) (ensure_clients_header ws).1 from rfl]
    exact load_clients_delete_shift ws k hRle

/-- C3 (witness): the theorem applied to a concrete three-row sheet with
`R = 2`. -/
theorem claim_C3_witness :
    (2 ≤ 2 ∧
        2 ≤ ([[Cell.s "h"], [Cell.s "r2"], [Cell.s "r3"]] : Ws).length) ∧
      load_orders_with_rows 7
          (delete_order_row 7 2 "a" "why" []
            [[Cell.s "h"], [Cell.s "r2"], [Cell.s "r3"]] []).1 =
        (load_orders_with_rows 7 [[Cell.s "h"], [Cell.s "r2"], [Cell.s "r3"]]).take 0 ++
          ((load_orders_with_rows 7 [[Cell.s "h"], [Cell.s "r2"], [Cell.s "r3"]]).drop 1).map
            (fun rec => { rec with sheetRow := rec.sheetRow - 1 }) :=
  ⟨⟨by decide, by decide⟩,
    (claim_C3 7 [[Cell.s "h"], [Cell.s "r2"], [Cell.s "r3"]] [] 2 "a" "why" []
      (by decide) (by decide)).1⟩

/-! ## Claim C9: audit coverage of the mutating actions -/

/-- C9 (counterexample): client creation mutates the Clients sheet but
appends no audit entry — the `Add client (global)` handler returns the
audit worksheet unchanged while the clients worksheet gains a row. -/
theorem claim_C9_counterexample :
    (admin_add_client_global "u" "acme" "2024-01-01"
        [CLIENTS_HEADER.map Cell.s] [AUDIT_HEADER.map Cell.s]).1 ≠
        [CLIENTS_HEADER.map Cell.s] ∧
      (admin_add_client_global "u" "acme" "2024-01-01"
          [CLIENTS_HEADER.map Cell.s] [AUDIT_HEADER.map Cell.s]).2 =
        [AUDIT_HEADER.map Cell.s] := by
  constructor
  · decide
  · decide

/-- C9 (amended): `log_audit` appends exactly one row (timestamp, actor,
action kind, target sheet, stringified row, reason-or-dash, before/after
JSON snapshots) to the reconciled audit sheet, and every mutating admin
action except client creation routes its audit through exactly one such
call with its action kind and snapshots: order edit (`EDIT_ORDER`, old and
full record), order delete (`DELETE_ORDER`, old record), client edit
(`EDIT_CLIENT`, new fields), client delete (`DELETE_CLIENT`, old record),
preset save (`SAVE_PRESET`, name), preset delete (`DELETE_PRESET` when a
matching preset exists, nothing otherwise), user add (`ADD_USER`) and user
update (`UPDATE_USER`).  Client creation appends no audit entry. -/
theorem claim_C9 :
    (∀ (now : ℤ) (actor action target rowS reason : String) (oldO newO : Option Snap)
        (audit : Ws),
      log_audit now actor action target rowS reason oldO newO audit =
        (ensure_audit_header audit).1 ++
          [[Cell.s (fmtTs now), Cell.s actor, Cell.s action, Cell.s target, Cell.s rowS,
            Cell.s (if reason = "" then "-" else reason),
            Cell.s (jsonDumps (oldO.getD [])), Cell.s (jsonDumps (newO.getD []))]]) ∧
    (∀ (now : ℤ) (r : Nat) (nv : Snap) (actor reason : String) (old : Snap)
        (orders audit : Ws),
      (update_order_row now r nv actor reason old orders audit).map Prod.snd =
        (uorFull now nv old).map (fun full =>
          log_audit now actor "EDIT_ORDER" ORDERS_SHEET (intRepr r) reason
            (some old) (some full) audit)) ∧
    (∀ (now : ℤ) (r : Nat) (actor reason : String) (old : Snap) (orders audit : Ws),
      (delete_order_row now r actor reason old orders audit).2 =
        log_audit now actor "DELETE_ORDER" ORDERS_SHEET (intRepr r) reason
          (some old) none audit) ∧
    (∀ (user client od : String) (clients audit : Ws),
      (admin_add_client_global user client od clients audit).2 = audit) ∧
    (∀ (now : ℤ) (r : Nat) (user client od actor : String) (clients audit : Ws),
      (update_client now r user client od actor clients audit).2 =
        log_audit now actor "EDIT_CLIENT" CLIENTS_SHEET (intRepr r) "-" none
          (some [("User", Cell.s user), ("Client", Cell.s client), ("OpenDate", Cell.s od)])
          audit) ∧
    (∀ (now : ℤ) (r : Nat) (actor reason : String) (old : Snap) (clients audit : Ws),
      (delete_client_row now r actor reason old clients audit).2 =
        log_audit now actor "DELETE_CLIENT" CLIENTS_SHEET (intRepr r) reason
          (some old) none audit) ∧
    (∀ (now : ℤ) (name user client status dfrom dto actor : String) (presets audit : Ws),
      (save_preset now name user client status dfrom dto actor presets audit).2 =
        log_audit now actor "SAVE_PRESET" PRESETS_SHEET "-" "-" none
          (some [("Name", Cell.s name)]) audit) ∧
    (∀ (now : ℤ) (name actor : String) (presets audit : Ws),
      (delete_preset_by_name now name actor presets audit).2 =
        match lastPresetIdx name (getAllValues (ensure_presets_header presets).1) with
        | some i =>
          log_audit now actor "DELETE_PRESET" PRESETS_SHEET (intRepr (i + 1)) "-"
            (some [("Name", Cell.s name)]) none audit
        | none => audit) ∧
    (∀ (now : ℤ) (actor un dn role pw : String) (users audit : Ws),
      un ≠ "" → dn ≠ "" →
      (load_users_df users).any (fun u => u.username = un) = false →
      (admin_create_user now actor un dn role pw users audit).2.1 =
        log_audit now actor "ADD_USER" USERS_SHEET "-" "-" none
          (some [("Username", Cell.s un)]) audit) ∧
    (∀ (now : ℤ) (actor sel role2 active2 pw2 : String) (users audit : Ws) (row : UserRec),
      (load_users_df users).find? (fun u => u.username = sel) = some row →
      (admin_update_user now actor sel role2 active2 pw2 users audit).2.1 =
        log_audit now actor "UPDATE_USER" USERS_SHEET (intRepr row.sheetRow) "-" none
          (some [("Username", Cell.s row.username)]) audit) := by
  refine ⟨?_, ?_, ?_, ?_, ?_, ?_, ?_, ?_, ?_, ?_⟩
  · intro now actor action target rowS reason oldO newO audit
    rfl
  · intro now r nv actor reason old orders audit
    unfold update_order_row
    cases uorFull now nv old with
    | none => rfl
    | some full => rfl
  · intro now r actor reason old orders audit
    rfl
  · intro user client od clients audit
    rfl
  · intro now r user client od actor clients audit
    rfl
  · intro now r actor reason old clients audit
    rfl
  · intro now name user client status dfrom dto actor presets audit
    rfl
  · intro now name actor presets audit
    simp only [delete_preset_by_name]
    cases lastPresetIdx name (getAllValues (ensure_presets_header presets).1) with
    | none => rfl
    | some i => rfl
  · intro now actor un dn role pw users audit h1 h2 h3
    unfold admin_create_user
    rw [if_neg (by push_neg; exact ⟨h1, h2⟩)]
    dsimp only
    rw [if_neg (by rw [h3]; exact Bool.false_ne_true)]
  · intro now actor sel role2 active2 pw2 users audit row hfind
    unfold admin_update_user
    rw [hfind]

/-- C9 (witness): the user-add and user-update parts of the amended theorem
applied to a concrete one-user sheet. -/
theorem claim_C9_witness :
    (("newu" : String) ≠ "" ∧ ("New" : String) ≠ "" ∧
      (load_users_df [USERS_HEADER.map Cell.s,
          [Cell.s "jerry", Cell.s "Jerry", Cell.s "admin", Cell.s "p", Cell.s "TRUE"]]).any
        (fun u => u.username = "newu") = false ∧
      (admin_create_user 0 "a" "newu" "New" "team" "pw"
          [USERS_HEADER.map Cell.s,
            [Cell.s "jerry", Cell.s "Jerry", Cell.s "admin", Cell.s "p", Cell.s "TRUE"]]
          []).2.1 =
        log_audit 0 "a" "ADD_USER" USERS_SHEET "-" "-" none
          (some [("Username", Cell.s "newu")]) []) ∧
    ((load_users_df [USERS_HEADER.map Cell.s,
          [Cell.s "jerry", Cell.s "Jerry", Cell.s "admin", Cell.s "p", Cell.s "TRUE"]]).find?
        (fun u => u.username = "jerry") =
        some { sheetRow := 2, username := "jerry", displayName := "Jerry", role := "admin",
               password := "p", active := "TRUE" } ∧
      (admin_update_user 0 "a" "jerry" "team" "FALSE" ""
          [USERS_HEADER.map Cell.s,
            [Cell.s "jerry", Cell.s "Jerry", Cell.s "admin", Cell.s "p", Cell.s "TRUE"]]
          []).2.1 =
        log_audit 0 "a" "UPDATE_USER" USERS_SHEET (intRepr 2) "-" none
          (some [("Username", Cell.s "jerry")]) []) :=
  ⟨⟨by decide, by decide, by decide,
      claim_C9.2.2.2.2.2.2.2.2.1 0 "a" "newu" "New" "team" "pw"
        [USERS_HEADER.map Cell.s,
          [Cell.s "jerry", Cell.s "Jerry", Cell.s "admin", Cell.s "p", Cell.s "TRUE"]]
        [] (by decide) (by decide) (by decide)⟩,
    ⟨by decide,
      claim_C9.2.2.2.2.2.2.2.2.2 0 "a" "jerry" "team" "FALSE" ""
        [USERS_HEADER.map Cell.s,
          [Cell.s "jerry", Cell.s "Jerry", Cell.s "admin", Cell.s "p", Cell.s "TRUE"]]
        []
        { sheetRow := 2, username := "jerry", displayName := "Jerry", role := "admin",
          password := "p", active := "TRUE" } (by decide)⟩⟩

/-! ## Claim C8: blocking of deactivated users -/

set_option maxRecDepth 100000 in
/-- C8 (counterexample): a request with an invalid process session token and
a valid cookie token for a user whose Active flag is FALSE is sent to the
login view with the cookie cleared, but the stale session token is not
dropped: the cookie branch leaves `st.session_state` untouched, so the
"session token is dropped" part of the claim fails on the cookie path. -/
theorem claim_C8_counterexample :
    verify_token 0 (issue_token 0 "jerry" "Jerry") = some ⟨"jerry", "Jerry"⟩ ∧
      (get_user_record
          (ensure_users_sheet_seed
            [USERS_HEADER.map Cell.s,
             [Cell.s "jerry", Cell.s "Jerry", Cell.s "admin", Cell.s "p", Cell.s "FALSE"]]).1
          "jerry").map (fun r => r.active) = some false ∧
      (routeRequest 0
          [USERS_HEADER.map Cell.s,
           [Cell.s "jerry", Cell.s "Jerry", Cell.s "admin", Cell.s "p", Cell.s "FALSE"]]
          { sessionToken := some "A", postLogout := false,
            cookies := some (some (issue_token 0 "jerry" "Jerry")) }).sessionToken =
        some "A" ∧
      (routeRequest 0
          [USERS_HEADER.map Cell.s,
           [Cell.s "jerry", Cell.s "Jerry", Cell.s "admin", Cell.s "p", Cell.s "FALSE"]]
          { sessionToken := some "A", postLogout := false,
            cookies := some (some (issue_token 0 "jerry" "Jerry")) }).view = RView.login := by
  refine ⟨by decide, by decide, by decide, by decide⟩

/-- C8 (amended): outside the logout cycle, whenever the Users sheet
records the token's username as absent or with an Active flag that does
not spell true, the request is blocked and the login screen shown.  On the
session path (the process session holds that valid token) the session
token is dropped, the cookie cleared and the deactivation notice shown.
On the cookie path (no valid session token, the cookie holds the valid
token) the cookie is cleared and the notice shown, but the process session
token — absent or invalid here — is left as it was rather than dropped. -/
theorem claim_C8 (now : ℤ) (usersWs : Ws) (st : RouterState) (tok : String) (u : AuthIdent)
    (hlogout : st.postLogout = false)
    (hver : verify_token now tok = some u)
    (hinact : ∀ rec,
      get_user_record (ensure_users_sheet_seed usersWs).1 u.username = some rec →
        rec.active = false) :
    (st.sessionToken = some tok →
      routeRequest now usersWs st =
        { sessionToken := none, postLogout := false, cookieCleared := true,
          cookieSet := none, view := RView.login, inactiveMsg := true }) ∧
    ((st.sessionToken = none ∨ (∀ s, st.sessionToken = some s → verify_token now s = none)) →
      st.cookies = some (some tok) → tok ≠ "" →
      routeRequest now usersWs st =
        { sessionToken := st.sessionToken, postLogout := false, cookieCleared := true,
          cookieSet := none, view := RView.login, inactiveMsg := true }) := by
  constructor
  · intro hsess
    simp only [routeRequest, hlogout, Bool.false_eq_true, if_false, hsess, hver]
    cases hrec : get_user_record (ensure_users_sheet_seed usersWs).1 u.username with
    | none => rfl
    | some rec =>
      have hact := hinact rec hrec
      simp [hact]
  · intro hsessNone hcook htok
    have hbranch : routeRequest now usersWs st =
        routerCookieBranch now (ensure_users_sheet_seed usersWs).1 st := by
      simp only [routeRequest, hlogout, Bool.false_eq_true, if_false]
      rcases hsessNone with h | h
      · rw [h]
      · cases hs : st.sessionToken with
        | none => rfl
        | some s =>
          dsimp only
          rw [h s hs]
    rw [hbranch]
    simp only [routerCookieBranch, hcook]
    rw [if_pos htok, hver]
    dsimp only
    cases hrec : get_user_record (ensure_users_sheet_seed usersWs).1 u.username with
    | none => simp [hlogout]
    | some rec =>
      have hact := hinact rec hrec
      simp [hact, hlogout]

set_option maxRecDepth 100000 in
/-- C8 (witness): the session path of the amended theorem applied to a
deactivated concrete user holding a fresh valid token. -/
theorem claim_C8_witness :
    verify_token 0 (issue_token 0 "jerry" "Jerry") = some ⟨"jerry", "Jerry"⟩ ∧
      routeRequest 0
          [USERS_HEADER.map Cell.s,
           [Cell.s "jerry", Cell.s "Jerry", Cell.s "admin", Cell.s "p", Cell.s "FALSE"]]
          { sessionToken := some (issue_token 0 "jerry" "Jerry"), postLogout := false,
            cookies := none } =
        { sessionToken := none, postLogout := false, cookieCleared := true,
          cookieSet := none, view := RView.login, inactiveMsg := true } := by
  have hver : verify_token 0 (issue_token 0 "jerry" "Jerry") = some ⟨"jerry", "Jerry"⟩ := by
    decide
  have hrec : get_user_record
      (ensure_users_sheet_seed
        [USERS_HEADER.map Cell.s,
         [Cell.s "jerry", Cell.s "Jerry", Cell.s "admin", Cell.s "p", Cell.s "FALSE"]]).1
      "jerry" =
      some { sheetRow := 2, username := "jerry", displayName := "Jerry", role := "admin",
             password := "p", active := false } := by decide
  refine ⟨hver, ?_⟩
  exact (claim_C8 0
      [USERS_HEADER.map Cell.s,
       [Cell.s "jerry", Cell.s "Jerry", Cell.s "admin", Cell.s "p", Cell.s "FALSE"]]
      { sessionToken := some (issue_token 0 "jerry" "Jerry"), postLogout := false,
        cookies := none }
      (issue_token 0 "jerry" "Jerry") ⟨"jerry", "Jerry"⟩ rfl hver
      (fun rec h => by
        have h2 : get_user_record
            (ensure_users_sheet_seed
              [USERS_HEADER.map Cell.s,
               [Cell.s "jerry", Cell.s "Jerry", Cell.s "admin", Cell.s "p", Cell.s "FALSE"]]).1
            "jerry" = some rec := h
        rw [hrec] at h2
        exact (Option.some.inj h2) ▸ rfl)).1 rfl

end ReportApp
